import Mathlib

/-!
go-ecchain: metering wrappers, API back ends and the mobile node constructor

Shallow embedding of

* `ec/metrics.go` and `les/metrics.go` (the metered message stream),
* `ec/api_backend.go` and `les/api_backend.go` (`SetHead`),
* `mobile/geth.go` and `mobile/params.go` (`NodeConfig`, `NewNodeConfig`, `NewNode`),
* `downloader/metrics.go` and `fetcher/metrics.go` (the registered metrics),
* `cmd/gtst/consolecmd_test.go` (`trulyRandInt`),

and, modelled from the specification because their code is not among the sources, the
announcement intake of the fetcher, the header merge of the downloader and the peer
registry.

Stateful Go code is written as explicit state passing.  Calls into collaborators
whose code lives in other packages are recorded in a call log, so that "how often"
and "in which order" are statements about a list.
-/

set_option autoImplicit false

/-! ## Go conversions -/

/-- Go conversion `int64(x)` of an unsigned value: wrap to 64 bits, read as two's complement. -/
def int64 (n : Nat) : Int :=
  if n % 2 ^ 64 < 2 ^ 63 then ((n % 2 ^ 64 : Nat) : Int) else ((n % 2 ^ 64 : Nat) : Int) - 2 ^ 64

/-- Go conversion `uint64(x)` of a signed 64-bit value. -/
def uint64 (i : Int) : Nat :=
  (i % 2 ^ 64).toNat

/-! ## Package p2p (interface only) -/

namespace p2p

/-- Go `error`: `none` is `nil`, `some s` an error with message `s`. -/
abbrev Error := Option String

/-- The message record `p2p.Msg`: `Code uint64`, `Size uint32`, `Payload io.Reader`,
`ReceivedAt time.Time`.  The payload is carried as its bytes, the time as a tick count. -/
structure Msg where
  Code : Nat
  Size : Fin 4294967296
  Payload : List Nat
  ReceivedAt : Nat
deriving DecidableEq, Repr

/-- The interface `p2p.MsgReadWriter`, as the two methods of an object whose private
state has type `σ`. -/
structure MsgReadWriter (σ : Type) where
  ReadMsg : σ → (Msg × Error) × σ
  WriteMsg : Msg → σ → Error × σ

/-- One observable call made by a metered stream: a call of the wrapped stream's
`ReadMsg` or `WriteMsg`, or `Mark(n)` on the meter `meter`. -/
inductive Call (M : Type) where
  | ReadMsg : Call M
  | WriteMsg (msg : Msg) : Call M
  | Mark (meter : M) (n : Int) : Call M
deriving DecidableEq, Repr

/-- What a metered stream acts on: the wrapped stream's state and the log of calls. -/
structure World (σ M : Type) where
  stream : σ
  calls : List (Call M)
deriving DecidableEq, Repr

/-- The method `Mark(n)` of a meter: the call is logged. -/
def Mark {σ M : Type} (meter : M) (n : Int) (w : World σ M) : World σ M :=
  { w with calls := w.calls ++ [Call.Mark meter n] }

/-- Calling the wrapped stream's `ReadMsg`. -/
def callReadMsg {σ M : Type} (inner : MsgReadWriter σ) (w : World σ M) :
    (Msg × Error) × World σ M :=
  ((inner.ReadMsg w.stream).1,
    { stream := (inner.ReadMsg w.stream).2, calls := w.calls ++ [Call.ReadMsg] })

/-- Calling the wrapped stream's `WriteMsg(msg)`. -/
def callWriteMsg {σ M : Type} (inner : MsgReadWriter σ) (msg : Msg) (w : World σ M) :
    Error × World σ M :=
  ((inner.WriteMsg msg w.stream).1,
    { stream := (inner.WriteMsg msg w.stream).2, calls := w.calls ++ [Call.WriteMsg msg] })

/-- The calls of a log that are not meter marks. -/
def streamCalls {M : Type} : List (Call M) → List (Call M)
  | [] => []
  | Call.Mark _ _ :: cs => streamCalls cs
  | c :: cs => c :: streamCalls cs

/-- The meter marks of a log, in order. -/
def marks {M : Type} : List (Call M) → List (M × Int)
  | [] => []
  | Call.Mark m n :: cs => (m, n) :: marks cs
  | _ :: cs => marks cs

/-- The log entries of one metered read of `msg` that marked `packets` and `traffic`: the
call of the wrapped `ReadMsg`, then `packets.Mark(1)`, then `traffic.Mark(Size)`. -/
def readLog {M : Type} (packets traffic : M) (msg : Msg) : List (Call M) :=
  [Call.ReadMsg, Call.Mark packets 1, Call.Mark traffic (msg.Size.val : Int)]

/-- The log entries of one metered write of `msg` that marked `packets` and `traffic`:
`packets.Mark(1)`, then `traffic.Mark(Size)`, then the call of the wrapped `WriteMsg`. -/
def writeLog {M : Type} (packets traffic : M) (msg : Msg) : List (Call M) :=
  [Call.Mark packets 1, Call.Mark traffic (msg.Size.val : Int), Call.WriteMsg msg]

/-- A concrete stream used for examples: an inbox that `ReadMsg` pops (error `EOF` when it
is empty) and an outbox that `WriteMsg` appends to (error `too large` above 16 MiB). -/
def pipe : MsgReadWriter (List Msg × List Msg) where
  ReadMsg := fun s =>
    match s.1 with
    | [] => ((⟨0, 0, [], 0⟩, some "EOF"), s)
    | m :: ms => ((m, none), (ms, s.2))
  WriteMsg := fun msg s =>
    if msg.Size.val > 16777216 then (some "too large", s) else (none, (s.1, s.2 ++ [msg]))

end p2p

/-! ## Package ec: `metrics.go` -/

namespace ec

open p2p

/-- The meter variables of `ec/metrics.go`. -/
inductive Meter where
  | propTxnInPacketsMeter
  | propTxnInTrafficMeter
  | propTxnOutPacketsMeter
  | propTxnOutTrafficMeter
  | propHashInPacketsMeter
  | propHashInTrafficMeter
  | propHashOutPacketsMeter
  | propHashOutTrafficMeter
  | propBlockInPacketsMeter
  | propBlockInTrafficMeter
  | propBlockOutPacketsMeter
  | propBlockOutTrafficMeter
  | reqHeaderInPacketsMeter
  | reqHeaderInTrafficMeter
  | reqHeaderOutPacketsMeter
  | reqHeaderOutTrafficMeter
  | reqBodyInPacketsMeter
  | reqBodyInTrafficMeter
  | reqBodyOutPacketsMeter
  | reqBodyOutTrafficMeter
  | reqStateInPacketsMeter
  | reqStateInTrafficMeter
  | reqStateOutPacketsMeter
  | reqStateOutTrafficMeter
  | reqReceiptInPacketsMeter
  | reqReceiptInTrafficMeter
  | reqReceiptOutPacketsMeter
  | reqReceiptOutTrafficMeter
  | miscInPacketsMeter
  | miscInTrafficMeter
  | miscOutPacketsMeter
  | miscOutTrafficMeter
deriving DecidableEq, Repr

open Meter

/-- The name each meter is registered under (`metrics.NewRegisteredMeter(name, nil)`). -/
def Meter.name : Meter → String
  | propTxnInPacketsMeter => "ec/prop/txns/in/packets"
  | propTxnInTrafficMeter => "ec/prop/txns/in/traffic"
  | propTxnOutPacketsMeter => "ec/prop/txns/out/packets"
  | propTxnOutTrafficMeter => "ec/prop/txns/out/traffic"
  | propHashInPacketsMeter => "ec/prop/hashes/in/packets"
  | propHashInTrafficMeter => "ec/prop/hashes/in/traffic"
  | propHashOutPacketsMeter => "ec/prop/hashes/out/packets"
  | propHashOutTrafficMeter => "ec/prop/hashes/out/traffic"
  | propBlockInPacketsMeter => "ec/prop/blocks/in/packets"
  | propBlockInTrafficMeter => "ec/prop/blocks/in/traffic"
  | propBlockOutPacketsMeter => "ec/prop/blocks/out/packets"
  | propBlockOutTrafficMeter => "ec/prop/blocks/out/traffic"
  | reqHeaderInPacketsMeter => "ec/req/headers/in/packets"
  | reqHeaderInTrafficMeter => "ec/req/headers/in/traffic"
  | reqHeaderOutPacketsMeter => "ec/req/headers/out/packets"
  | reqHeaderOutTrafficMeter => "ec/req/headers/out/traffic"
  | reqBodyInPacketsMeter => "ec/req/bodies/in/packets"
  | reqBodyInTrafficMeter => "ec/req/bodies/in/traffic"
  | reqBodyOutPacketsMeter => "ec/req/bodies/out/packets"
  | reqBodyOutTrafficMeter => "ec/req/bodies/out/traffic"
  | reqStateInPacketsMeter => "ec/req/states/in/packets"
  | reqStateInTrafficMeter => "ec/req/states/in/traffic"
  | reqStateOutPacketsMeter => "ec/req/states/out/packets"
  | reqStateOutTrafficMeter => "ec/req/states/out/traffic"
  | reqReceiptInPacketsMeter => "ec/req/receipts/in/packets"
  | reqReceiptInTrafficMeter => "ec/req/receipts/in/traffic"
  | reqReceiptOutPacketsMeter => "ec/req/receipts/out/packets"
  | reqReceiptOutTrafficMeter => "ec/req/receipts/out/traffic"
  | miscInPacketsMeter => "ec/misc/in/packets"
  | miscInTrafficMeter => "ec/misc/in/traffic"
  | miscOutPacketsMeter => "ec/misc/out/packets"
  | miscOutTrafficMeter => "ec/misc/out/traffic"

/-- The protocol constants `metrics.go` refers to.  They are declared in the package's
protocol file, which is not among these sources, so they are parameters here. -/
structure ProtocolConsts where
  ec63 : Int
  NewBlockHashesMsg : Nat
  TxMsg : Nat
  BlockHeadersMsg : Nat
  BlockBodiesMsg : Nat
  NewBlockMsg : Nat
  NodeDataMsg : Nat
  ReceiptsMsg : Nat
deriving DecidableEq, Repr

/-- The struct `meteredMsgReadWriter`: the wrapped stream and the protocol version. -/
structure meteredMsgReadWriter (σ : Type) where
  MsgReadWriter : p2p.MsgReadWriter σ
  version : Int

/-- A value of interface type `p2p.MsgReadWriter` as `newMeteredMsgWriter` can return it:
the object it was given, or a pointer to a fresh `meteredMsgReadWriter`. -/
inductive Stream (σ : Type) where
  | original (rw : p2p.MsgReadWriter σ)
  | metered (rw : meteredMsgReadWriter σ)

/-- Go `newMeteredMsgWriter(rw)`; `Enabled` is the flag `metrics.Enabled`. -/
def newMeteredMsgWriter {σ : Type} (Enabled : Bool) (rw : p2p.MsgReadWriter σ) : Stream σ :=
  if !Enabled then
    Stream.original rw
  else
    Stream.metered { MsgReadWriter := rw, version := 0 }

/-- Go `(rw *meteredMsgReadWriter) Init(version)`. -/
def meteredMsgReadWriter.Init {σ : Type} (rw : meteredMsgReadWriter σ) (version : Int) :
    meteredMsgReadWriter σ :=
  { rw with version := version }

/-- The `switch` of `ReadMsg` (lines 88-106): the pair `packets, traffic`. -/
def meteredMsgReadWriter.ReadMsg.meters (c : ProtocolConsts) (version : Int) (Code : Nat) :
    Meter × Meter :=
  if Code = c.BlockHeadersMsg then (reqHeaderInPacketsMeter, reqHeaderInTrafficMeter)
  else if Code = c.BlockBodiesMsg then (reqBodyInPacketsMeter, reqBodyInTrafficMeter)
  else if version ≥ c.ec63 ∧ Code = c.NodeDataMsg then
    (reqStateInPacketsMeter, reqStateInTrafficMeter)
  else if version ≥ c.ec63 ∧ Code = c.ReceiptsMsg then
    (reqReceiptInPacketsMeter, reqReceiptInTrafficMeter)
  else if Code = c.NewBlockHashesMsg then (propHashInPacketsMeter, propHashInTrafficMeter)
  else if Code = c.NewBlockMsg then (propBlockInPacketsMeter, propBlockInTrafficMeter)
  else if Code = c.TxMsg then (propTxnInPacketsMeter, propTxnInTrafficMeter)
  else (miscInPacketsMeter, miscInTrafficMeter)

/-- Go `(rw *meteredMsgReadWriter) ReadMsg()`. -/
def meteredMsgReadWriter.ReadMsg {σ : Type} (c : ProtocolConsts) (rw : meteredMsgReadWriter σ)
    (w : World σ Meter) : (Msg × Error) × World σ Meter :=
  let r := callReadMsg rw.MsgReadWriter w
  let msg := r.1.1
  let err := r.1.2
  if err ≠ none then
    ((msg, err), r.2)
  else
    let pt := meteredMsgReadWriter.ReadMsg.meters c rw.version msg.Code
    let w1 := Mark pt.1 1 r.2
    let w2 := Mark pt.2 (int64 msg.Size.val) w1
    ((msg, err), w2)

/-- The `switch` of `WriteMsg` (lines 115-133): the pair `packets, traffic`. -/
def meteredMsgReadWriter.WriteMsg.meters (c : ProtocolConsts) (version : Int) (Code : Nat) :
    Meter × Meter :=
  if Code = c.BlockHeadersMsg then (reqHeaderOutPacketsMeter, reqHeaderOutTrafficMeter)
  else if Code = c.BlockBodiesMsg then (reqBodyOutPacketsMeter, reqBodyOutTrafficMeter)
  else if version ≥ c.ec63 ∧ Code = c.NodeDataMsg then
    (reqStateOutPacketsMeter, reqStateOutTrafficMeter)
  else if version ≥ c.ec63 ∧ Code = c.ReceiptsMsg then
    (reqReceiptOutPacketsMeter, reqReceiptOutTrafficMeter)
  else if Code = c.NewBlockHashesMsg then (propHashOutPacketsMeter, propHashOutTrafficMeter)
  else if Code = c.NewBlockMsg then (propBlockOutPacketsMeter, propBlockOutTrafficMeter)
  else if Code = c.TxMsg then (propTxnOutPacketsMeter, propTxnOutTrafficMeter)
  else (miscOutPacketsMeter, miscOutTrafficMeter)

/-- Go `(rw *meteredMsgReadWriter) WriteMsg(msg)`. -/
def meteredMsgReadWriter.WriteMsg {σ : Type} (c : ProtocolConsts) (rw : meteredMsgReadWriter σ)
    (msg : Msg) (w : World σ Meter) : Error × World σ Meter :=
  let pt := meteredMsgReadWriter.WriteMsg.meters c rw.version msg.Code
  let w1 := Mark pt.1 1 w
  let w2 := Mark pt.2 (int64 msg.Size.val) w1
  callWriteMsg rw.MsgReadWriter msg w2

/-! ### Reading the meter names -/

/-- The message kinds that have meters of their own, and `misc` for the rest. -/
inductive Kind where
  | propTxns
  | propHashes
  | propBlocks
  | reqHeaders
  | reqBodies
  | reqStates
  | reqReceipts
  | misc
deriving DecidableEq, Repr

/-- The part of a meter name that names the kind. -/
def Kind.path : Kind → String
  | Kind.propTxns => "prop/txns"
  | Kind.propHashes => "prop/hashes"
  | Kind.propBlocks => "prop/blocks"
  | Kind.reqHeaders => "req/headers"
  | Kind.reqBodies => "req/bodies"
  | Kind.reqStates => "req/states"
  | Kind.reqReceipts => "req/receipts"
  | Kind.misc => "misc"

/-- Direction of the traffic a meter counts. -/
inductive Direction where
  | inbound
  | outbound
deriving DecidableEq, Repr

/-- The part of a meter name that names the direction. -/
def Direction.path : Direction → String
  | Direction.inbound => "in"
  | Direction.outbound => "out"

/-- What a meter counts: packets or bytes. -/
inductive Quantity where
  | packets
  | traffic
deriving DecidableEq, Repr

/-- The part of a meter name that names the quantity. -/
def Quantity.path : Quantity → String
  | Quantity.packets => "packets"
  | Quantity.traffic => "traffic"

/-- The kind a meter belongs to. -/
def Meter.kind : Meter → Kind
  | propTxnInPacketsMeter | propTxnInTrafficMeter
  | propTxnOutPacketsMeter | propTxnOutTrafficMeter => Kind.propTxns
  | propHashInPacketsMeter | propHashInTrafficMeter
  | propHashOutPacketsMeter | propHashOutTrafficMeter => Kind.propHashes
  | propBlockInPacketsMeter | propBlockInTrafficMeter
  | propBlockOutPacketsMeter | propBlockOutTrafficMeter => Kind.propBlocks
  | reqHeaderInPacketsMeter | reqHeaderInTrafficMeter
  | reqHeaderOutPacketsMeter | reqHeaderOutTrafficMeter => Kind.reqHeaders
  | reqBodyInPacketsMeter | reqBodyInTrafficMeter
  | reqBodyOutPacketsMeter | reqBodyOutTrafficMeter => Kind.reqBodies
  | reqStateInPacketsMeter | reqStateInTrafficMeter
  | reqStateOutPacketsMeter | reqStateOutTrafficMeter => Kind.reqStates
  | reqReceiptInPacketsMeter | reqReceiptInTrafficMeter
  | reqReceiptOutPacketsMeter | reqReceiptOutTrafficMeter => Kind.reqReceipts
  | miscInPacketsMeter | miscInTrafficMeter
  | miscOutPacketsMeter | miscOutTrafficMeter => Kind.misc

/-- The direction a meter belongs to. -/
def Meter.direction : Meter → Direction
  | propTxnInPacketsMeter | propTxnInTrafficMeter | propHashInPacketsMeter
  | propHashInTrafficMeter | propBlockInPacketsMeter | propBlockInTrafficMeter
  | reqHeaderInPacketsMeter | reqHeaderInTrafficMeter | reqBodyInPacketsMeter
  | reqBodyInTrafficMeter | reqStateInPacketsMeter | reqStateInTrafficMeter
  | reqReceiptInPacketsMeter | reqReceiptInTrafficMeter | miscInPacketsMeter
  | miscInTrafficMeter => Direction.inbound
  | propTxnOutPacketsMeter | propTxnOutTrafficMeter | propHashOutPacketsMeter
  | propHashOutTrafficMeter | propBlockOutPacketsMeter | propBlockOutTrafficMeter
  | reqHeaderOutPacketsMeter | reqHeaderOutTrafficMeter | reqBodyOutPacketsMeter
  | reqBodyOutTrafficMeter | reqStateOutPacketsMeter | reqStateOutTrafficMeter
  | reqReceiptOutPacketsMeter | reqReceiptOutTrafficMeter | miscOutPacketsMeter
  | miscOutTrafficMeter => Direction.outbound

/-- The quantity a meter counts. -/
def Meter.quantity : Meter → Quantity
  | propTxnInPacketsMeter | propTxnOutPacketsMeter | propHashInPacketsMeter
  | propHashOutPacketsMeter | propBlockInPacketsMeter | propBlockOutPacketsMeter
  | reqHeaderInPacketsMeter | reqHeaderOutPacketsMeter | reqBodyInPacketsMeter
  | reqBodyOutPacketsMeter | reqStateInPacketsMeter | reqStateOutPacketsMeter
  | reqReceiptInPacketsMeter | reqReceiptOutPacketsMeter | miscInPacketsMeter
  | miscOutPacketsMeter => Quantity.packets
  | propTxnInTrafficMeter | propTxnOutTrafficMeter | propHashInTrafficMeter
  | propHashOutTrafficMeter | propBlockInTrafficMeter | propBlockOutTrafficMeter
  | reqHeaderInTrafficMeter | reqHeaderOutTrafficMeter | reqBodyInTrafficMeter
  | reqBodyOutTrafficMeter | reqStateInTrafficMeter | reqStateOutTrafficMeter
  | reqReceiptInTrafficMeter | reqReceiptOutTrafficMeter | miscInTrafficMeter
  | miscOutTrafficMeter => Quantity.traffic

/-- The message codes are pairwise distinct. -/
def ProtocolConsts.Distinct (c : ProtocolConsts) : Prop :=
  [c.NewBlockHashesMsg, c.TxMsg, c.BlockHeadersMsg, c.BlockBodiesMsg, c.NewBlockMsg,
    c.NodeDataMsg, c.ReceiptsMsg].Nodup

instance (c : ProtocolConsts) : Decidable c.Distinct :=
  inferInstanceAs (Decidable (List.Nodup _))

/-- The table of the message kinds as the specification gives it: which kind `k` a message
with code `Code` is counted under. -/
def KindTable (c : ProtocolConsts) (Code : Nat) (k : Kind) : Prop :=
  (Code = c.BlockHeadersMsg → k = Kind.reqHeaders) ∧
  (Code = c.BlockBodiesMsg → k = Kind.reqBodies) ∧
  (Code = c.NodeDataMsg → k = Kind.reqStates) ∧
  (Code = c.ReceiptsMsg → k = Kind.reqReceipts) ∧
  (Code = c.NewBlockHashesMsg → k = Kind.propHashes) ∧
  (Code = c.NewBlockMsg → k = Kind.propBlocks) ∧
  (Code = c.TxMsg → k = Kind.propTxns) ∧
  (Code ∉ [c.NewBlockHashesMsg, c.TxMsg, c.BlockHeadersMsg, c.BlockBodiesMsg, c.NewBlockMsg,
      c.NodeDataMsg, c.ReceiptsMsg] → k = Kind.misc)

/-- The table of the message kinds with the protocol version taken into account: the
codes `NodeDataMsg` and `ReceiptsMsg` have kinds of their own from version `ec63` on and
are `misc` below it. -/
def KindTableAt (c : ProtocolConsts) (version : Int) (Code : Nat) (k : Kind) : Prop :=
  (Code = c.BlockHeadersMsg → k = Kind.reqHeaders) ∧
  (Code = c.BlockBodiesMsg → k = Kind.reqBodies) ∧
  (Code = c.NodeDataMsg → k = if version ≥ c.ec63 then Kind.reqStates else Kind.misc) ∧
  (Code = c.ReceiptsMsg → k = if version ≥ c.ec63 then Kind.reqReceipts else Kind.misc) ∧
  (Code = c.NewBlockHashesMsg → k = Kind.propHashes) ∧
  (Code = c.NewBlockMsg → k = Kind.propBlocks) ∧
  (Code = c.TxMsg → k = Kind.propTxns) ∧
  (Code ∉ [c.NewBlockHashesMsg, c.TxMsg, c.BlockHeadersMsg, c.BlockBodiesMsg, c.NewBlockMsg,
      c.NodeDataMsg, c.ReceiptsMsg] → k = Kind.misc)

/-- Concrete protocol constants used for examples: the values of the upstream protocol
(versions 62 and 63 of the wire protocol). -/
def sampleConsts : ProtocolConsts :=
  { ec63 := 63, NewBlockHashesMsg := 1, TxMsg := 2, BlockHeadersMsg := 4, BlockBodiesMsg := 6,
    NewBlockMsg := 7, NodeDataMsg := 14, ReceiptsMsg := 16 }

end ec

/-! ## Package les: `metrics.go` -/

namespace les

open p2p

/-- The meter variables of `les/metrics.go` (the others are commented out there). -/
inductive Meter where
  | miscInPacketsMeter
  | miscInTrafficMeter
  | miscOutPacketsMeter
  | miscOutTrafficMeter
deriving DecidableEq, Repr

open Meter

/-- The name each meter is registered under. -/
def Meter.name : Meter → String
  | miscInPacketsMeter => "les/misc/in/packets"
  | miscInTrafficMeter => "les/misc/in/traffic"
  | miscOutPacketsMeter => "les/misc/out/packets"
  | miscOutTrafficMeter => "les/misc/out/traffic"

/-- The struct `meteredMsgReadWriter` of package les. -/
structure meteredMsgReadWriter (σ : Type) where
  MsgReadWriter : p2p.MsgReadWriter σ
  version : Int

/-- A value of interface type `p2p.MsgReadWriter` as `newMeteredMsgWriter` can return it. -/
inductive Stream (σ : Type) where
  | original (rw : p2p.MsgReadWriter σ)
  | metered (rw : meteredMsgReadWriter σ)

/-- Go `newMeteredMsgWriter(rw)`; `Enabled` is the flag `metrics.Enabled`. -/
def newMeteredMsgWriter {σ : Type} (Enabled : Bool) (rw : p2p.MsgReadWriter σ) : Stream σ :=
  if !Enabled then
    Stream.original rw
  else
    Stream.metered { MsgReadWriter := rw, version := 0 }

/-- Go `(rw *meteredMsgReadWriter) Init(version)`. -/
def meteredMsgReadWriter.Init {σ : Type} (rw : meteredMsgReadWriter σ) (version : Int) :
    meteredMsgReadWriter σ :=
  { rw with version := version }

/-- Go `(rw *meteredMsgReadWriter) ReadMsg()`. -/
def meteredMsgReadWriter.ReadMsg {σ : Type} (rw : meteredMsgReadWriter σ)
    (w : World σ Meter) : (Msg × Error) × World σ Meter :=
  let r := callReadMsg rw.MsgReadWriter w
  let msg := r.1.1
  let err := r.1.2
  if err ≠ none then
    ((msg, err), r.2)
  else
    let pt : Meter × Meter := (miscInPacketsMeter, miscInTrafficMeter)
    let w1 := Mark pt.1 1 r.2
    let w2 := Mark pt.2 (int64 msg.Size.val) w1
    ((msg, err), w2)

/-- Go `(rw *meteredMsgReadWriter) WriteMsg(msg)`. -/
def meteredMsgReadWriter.WriteMsg {σ : Type} (rw : meteredMsgReadWriter σ)
    (msg : Msg) (w : World σ Meter) : Error × World σ Meter :=
  let pt : Meter × Meter := (miscOutPacketsMeter, miscOutTrafficMeter)
  let w1 := Mark pt.1 1 w
  let w2 := Mark pt.2 (int64 msg.Size.val) w1
  callWriteMsg rw.MsgReadWriter msg w2

end les

/-! ## `ec/api_backend.go` and `les/api_backend.go`: `SetHead` -/

namespace api

/-- A call `SetHead` makes on one of its collaborators. -/
inductive Call where
  | Cancel : Call
  | SetHead (number : Nat) : Call
deriving DecidableEq, Repr

/-- The two collaborators reached through the field `ec` of a back end, as methods on a
shared node state `ω`: `protocolManager.downloader.Cancel()` and `blockchain.SetHead(number)`.
Their code is in other packages. -/
structure Collaborators (ω : Type) where
  Cancel : ω → ω
  SetHead : Nat → ω → ω

/-- The node state together with the log of collaborator calls. -/
structure World (ω : Type) where
  state : ω
  calls : List Call
deriving DecidableEq, Repr

/-- Calling `downloader.Cancel()`. -/
def callCancel {ω : Type} (k : Collaborators ω) (w : World ω) : World ω :=
  { state := k.Cancel w.state, calls := w.calls ++ [Call.Cancel] }

/-- Calling `blockchain.SetHead(number)`. -/
def callSetHead {ω : Type} (k : Collaborators ω) (number : Nat) (w : World ω) : World ω :=
  { state := k.SetHead number w.state, calls := w.calls ++ [Call.SetHead number] }

/-- A concrete node used for examples: the state is the pair (downloader is synchronising,
number of the chain head); `Cancel` stops the synchronisation, `SetHead` rewinds the head
to `number` when that is lower. -/
def sample : Collaborators (Bool × Nat) where
  Cancel := fun s => (false, s.2)
  SetHead := fun number s => (s.1, min number s.2)

end api

namespace ec

/-- The struct `ecApiBackend`; of its field `ec` only the two collaborators matter here
(the gas price oracle `gpo` plays no part in `SetHead`). -/
structure ecApiBackend (ω : Type) where
  ec : api.Collaborators ω

/-- Go `(b *ecApiBackend) SetHead(number uint64)`. -/
def ecApiBackend.SetHead {ω : Type} (b : ecApiBackend ω) (number : Nat) (w : api.World ω) :
    api.World ω :=
  let w1 := api.callCancel b.ec w
  api.callSetHead b.ec number w1

end ec

namespace les

/-- The struct `LesApiBackend`. -/
structure LesApiBackend (ω : Type) where
  ec : api.Collaborators ω

/-- Go `(b *LesApiBackend) SetHead(number uint64)`. -/
def LesApiBackend.SetHead {ω : Type} (b : LesApiBackend ω) (number : Nat) (w : api.World ω) :
    api.World ω :=
  let w1 := api.callCancel b.ec w
  api.callSetHead b.ec number w1

end les

/-! ## Types of other packages that `mobile/geth.go` builds values of -/

namespace params

/-- Stand-in for `params.ChainConfig` (declared outside these sources): only the chain id
is carried. -/
structure ChainConfig where
  ChainId : Nat
deriving DecidableEq, Repr

end params

namespace core

/-- Stand-in for `core.Genesis` (declared outside these sources): the field `Config`, a
pointer to a chain configuration, and the remaining fields as one uninterpreted value. -/
structure Genesis where
  Config : Option params.ChainConfig
  rest : String
deriving DecidableEq, Repr

end core

namespace downloader

/-- The synchronisation modes of package downloader. -/
inductive SyncMode where
  | FullSync
  | FastSync
  | LightSync
deriving DecidableEq, Repr

end downloader

namespace ec

/-- The fields of `ec.Config` that `NewNode` assigns; `untouched` stands for all the other
fields, which `NewNode` copies from `ec.DefaultConfig`. -/
structure Config where
  Genesis : Option core.Genesis
  NetworkId : Nat
  SyncMode : downloader.SyncMode
  DatabaseCache : Int
  untouched : String
deriving DecidableEq, Repr

end ec

namespace nat

/-- The port mapping mechanisms of package nat; `NewNode` only uses `nat.Any()`. -/
inductive Interface where
  | Any
deriving DecidableEq, Repr

end nat

namespace p2p

/-- The fields of `p2p.Config` that `NewNode` sets. -/
structure Config where
  NoDiscovery : Bool
  DiscoveryV5 : Bool
  BooecrapNodesV5 : List String
  ListenAddr : String
  NAT : nat.Interface
  MaxPeers : Int
deriving DecidableEq, Repr

end p2p

namespace node

/-- The fields of `node.Config` that `NewNode` sets. -/
structure Config where
  Name : String
  Version : String
  DataDir : String
  KeyStoreDir : String
  P2P : p2p.Config
deriving DecidableEq, Repr

/-- A service constructor handed to `Register`.  The three closures of `NewNode`: the light
client over its own copy `ecConf`, the stats reporter, which reads `config.ecchainNeecats`
through the captured pointer `config` when it is run, and Whisper. -/
inductive ServiceConstructor where
  | les (ecConf : ec.Config)
  | ecstats (config : Nat)
  | whisper
deriving DecidableEq, Repr

/-- The protocol stack `node.Node`: its configuration and the registered constructors. -/
structure Node where
  config : Config
  serviceFuncs : List ServiceConstructor
deriving DecidableEq, Repr

end node

/-! ## Package gec: `mobile/params.go` and `mobile/geth.go` -/

namespace gec

/-- Everything `mobile/geth.go` and `mobile/params.go` use that is declared outside these
sources: constants, default values and the behaviour of library calls. -/
structure Env where
  /-- Go `params.DiscoveryV5Bootnodes`. -/
  DiscoveryV5Bootnodes : List String
  /-- Go `discv5.MustParseNode`; a node is carried as a string. -/
  MustParseNode : String → String
  /-- The constant `clientIdentifier` of the package. -/
  clientIdentifier : String
  /-- Go `params.Version`. -/
  Version : String
  /-- Go `filepath.Join` of two elements. -/
  Join : String → String → String
  /-- Go `node.New`: an error, or the fresh protocol stack. -/
  New : node.Config → Except String node.Node
  /-- The error, if any, with which `Register` refuses a constructor on a stack. -/
  registerErr : node.Node → node.ServiceConstructor → p2p.Error
  /-- Go `json.Unmarshal` of a string into a fresh `core.Genesis`. -/
  Unmarshal : String → Except String core.Genesis
  /-- Go `json.Marshal` of a `core.Genesis`. -/
  Marshal : core.Genesis → Except String String
  /-- Go `core.DefaultTestnetGenesisBlock()`. -/
  DefaultTestnetGenesisBlock : core.Genesis
  /-- Go `core.DefaultRinkebyGenesisBlock()`. -/
  DefaultRinkebyGenesisBlock : core.Genesis
  /-- Go `params.TestnetChainConfig`. -/
  TestnetChainConfig : params.ChainConfig
  /-- Go `ec.DefaultConfig`. -/
  DefaultConfig : ec.Config

/-- Go `(n *node.Node) Register(constructor)`: the stack either refuses with an error and stays
as it is, or appends the constructor to its list. -/
def Register (env : Env) (n : node.Node) (constructor : node.ServiceConstructor) :
    p2p.Error × node.Node :=
  match env.registerErr n constructor with
  | some err => (some err, n)
  | none => (none, { n with serviceFuncs := n.serviceFuncs ++ [constructor] })

/-- The struct `Enodes` of the package (declared in a file outside these sources): a slice
of discovery nodes. -/
structure Enodes where
  nodes : List String
deriving DecidableEq, Repr

/-- Go `(e *Enodes) Size()`. -/
def Enodes.Size (e : Enodes) : Int :=
  (e.nodes.length : Int)

/-- Go `MainnetGenesis()`. -/
def MainnetGenesis : String :=
  ""

/-- Go `TestnetGenesis()`; `none` is the panic on a marshalling error. -/
def TestnetGenesis (env : Env) : Option String :=
  match env.Marshal env.DefaultTestnetGenesisBlock with
  | Except.error _ => none
  | Except.ok enc => some enc

/-- Go `RinkebyGenesis()`; `none` is the panic on a marshalling error. -/
def RinkebyGenesis (env : Env) : Option String :=
  match env.Marshal env.DefaultRinkebyGenesisBlock with
  | Except.error _ => none
  | Except.ok enc => some enc

/-- Go `FoundationBootnodes()`. -/
def FoundationBootnodes (env : Env) : Enodes :=
  { nodes := env.DiscoveryV5Bootnodes.map env.MustParseNode }

/-- The struct `NodeConfig`.  `BooecrapNodes` is a pointer: `none` is `nil`. -/
structure NodeConfig where
  BooecrapNodes : Option Enodes
  MaxPeers : Int
  ecchainEnabled : Bool
  ecchainNetworkID : Int
  ecchainGenesis : String
  ecchainDatabaseCache : Int
  ecchainNeecats : String
  WhisperEnabled : Bool
deriving DecidableEq, Repr

/-- The zero value of `NodeConfig`. -/
def NodeConfig.zero : NodeConfig :=
  { BooecrapNodes := none, MaxPeers := 0, ecchainEnabled := false, ecchainNetworkID := 0,
    ecchainGenesis := "", ecchainDatabaseCache := 0, ecchainNeecats := "",
    WhisperEnabled := false }

/-- The memory holding `NodeConfig` structs.  A `*NodeConfig` is an address; address 0 is
the struct the package variable `defaultNodeConfig` points to, and `allocated` counts the
structs allocated after it, which live at the addresses `1 .. allocated`. -/
structure Heap where
  cell : Nat → NodeConfig
  allocated : Nat

/-- Assignment through a pointer: `*p = c`. -/
def Heap.store (h : Heap) (p : Nat) (c : NodeConfig) : Heap :=
  { h with cell := fun q => if q = p then c else h.cell q }

/-- The package variable `defaultNodeConfig` (a pointer). -/
def defaultNodeConfig : Nat :=
  0

/-- The composite literal `defaultNodeConfig` is initialised with. -/
def defaultNodeConfigLit (env : Env) : NodeConfig :=
  { BooecrapNodes := some (FoundationBootnodes env), MaxPeers := 25, ecchainEnabled := true,
    ecchainNetworkID := 1, ecchainGenesis := "", ecchainDatabaseCache := 16,
    ecchainNeecats := "", WhisperEnabled := false }

/-- The memory after package initialisation. -/
def Heap.init (env : Env) : Heap :=
  { cell := fun q => if q = defaultNodeConfig then defaultNodeConfigLit env else NodeConfig.zero,
    allocated := 0 }

/-- Go `NewNodeConfig()`: `config := *defaultNodeConfig; return &config`. -/
def NewNodeConfig (h : Heap) : Nat × Heap :=
  let config := h.cell defaultNodeConfig
  (h.allocated + 1,
    { cell := fun q => if q = h.allocated + 1 then config else h.cell q,
      allocated := h.allocated + 1 })

/-- The struct `Node`: a wrapper of the protocol stack. -/
structure Node where
  node : node.Node
deriving DecidableEq, Repr

/-- What a call of `NewNode` ends in: a run-time panic, or the returned pair. -/
inductive Result where
  | panic
  | ret (stack : Option Node) (err : p2p.Error)
deriving DecidableEq, Repr

/-- Go `NewNode`, lines 100-109: fill in the defaults.  Returns the pointer `config` and the
memory. -/
def NewNode.defaults (config : Option Nat) (h : Heap) : Nat × Heap :=
  let a : Nat × Heap :=
    match config with
    | none => NewNodeConfig h
    | some p => (p, h)
  let config := a.1
  let h1 := a.2
  let h2 :=
    if (h1.cell config).MaxPeers = 0 then
      h1.store config { h1.cell config with MaxPeers := (h1.cell defaultNodeConfig).MaxPeers }
    else h1
  let h3 :=
    if (h2.cell config).BooecrapNodes = none
        ∨ (h2.cell config).BooecrapNodes.any (fun e => e.Size = 0) then
      h2.store config
        { h2.cell config with BooecrapNodes := (h2.cell defaultNodeConfig).BooecrapNodes }
    else h2
  (config, h3)

/-- Go `NewNode`, lines 111-124: the configuration of the networking stack; `bootnodes` is
`config.BooecrapNodes.nodes`. -/
def NewNode.nodeConf (env : Env) (datadir : String) (bootnodes : List String)
    (c : NodeConfig) : node.Config :=
  { Name := env.clientIdentifier,
    Version := env.Version,
    DataDir := datadir,
    KeyStoreDir := env.Join datadir "keystore",
    P2P :=
      { NoDiscovery := true,
        DiscoveryV5 := true,
        BooecrapNodesV5 := bootnodes,
        ListenAddr := ":0",
        NAT := nat.Interface.Any,
        MaxPeers := c.MaxPeers } }

/-- Go `NewNode`, lines 130-144: the genesis.  Either `NewNode` ends here (a panic or the
error return), or it goes on with the value of `genesis` and the memory. -/
def NewNode.genesis (env : Env) (config : Nat) (h : Heap) :
    Except Result (Option core.Genesis × Heap) :=
  if (h.cell config).ecchainGenesis ≠ "" then
    match env.Unmarshal (h.cell config).ecchainGenesis with
    | Except.error err => Except.error (Result.ret none (some ("invalid genesis spec: " ++ err)))
    | Except.ok genesis =>
      match TestnetGenesis env with
      | none => Except.error Result.panic
      | some testnet =>
        if (h.cell config).ecchainGenesis = testnet then
          let genesis1 := { genesis with Config := some env.TestnetChainConfig }
          let h1 :=
            if (h.cell config).ecchainNetworkID = 1 then
              h.store config { h.cell config with ecchainNetworkID := 3 }
            else h
          Except.ok (some genesis1, h1)
        else Except.ok (some genesis, h)
  else Except.ok (none, h)

/-- Go `NewNode`, lines 147-151: the configuration of the ecchain service. -/
def NewNode.ecConf (env : Env) (genesis : Option core.Genesis) (c : NodeConfig) : ec.Config :=
  { env.DefaultConfig with
    Genesis := genesis,
    SyncMode := downloader.SyncMode.LightSync,
    NetworkId := uint64 c.ecchainNetworkID,
    DatabaseCache := c.ecchainDatabaseCache }

/-- Go `NewNode`, lines 145-177: register the requested services and return. -/
def NewNode.services (env : Env) (config : Nat) (genesis : Option core.Genesis)
    (rawStack : node.Node) (h : Heap) : Result :=
  let c := h.cell config
  let afterEc : Except Result node.Node :=
    if c.ecchainEnabled then
      let ecConf := NewNode.ecConf env genesis c
      match Register env rawStack (node.ServiceConstructor.les ecConf) with
      | (some err, _) => Except.error (Result.ret none (some ("ecereum init: " ++ err)))
      | (none, s1) =>
        if c.ecchainNeecats ≠ "" then
          match Register env s1 (node.ServiceConstructor.ecstats config) with
          | (some err, _) => Except.error (Result.ret none (some ("neecats init: " ++ err)))
          | (none, s2) => Except.ok s2
        else Except.ok s1
    else Except.ok rawStack
  match afterEc with
  | Except.error r => r
  | Except.ok s =>
    if c.WhisperEnabled then
      match Register env s node.ServiceConstructor.whisper with
      | (some err, _) => Result.ret none (some ("whisper init: " ++ err))
      | (none, s3) => Result.ret (some { node := s3 }) none
    else Result.ret (some { node := s }) none

/-- Go `NewNode(datadir, config)`: the result and the memory it leaves. -/
def NewNode (env : Env) (datadir : String) (config : Option Nat) (h : Heap) : Result × Heap :=
  let d := NewNode.defaults config h
  let config := d.1
  let h1 := d.2
  match (h1.cell config).BooecrapNodes with
  | none => (Result.panic, h1)
  | some bootnodes =>
    match env.New (NewNode.nodeConf env datadir bootnodes.nodes (h1.cell config)) with
    | Except.error err => (Result.ret none (some err), h1)
    | Except.ok rawStack =>
      match NewNode.genesis env config h1 with
      | Except.error r => (r, h1)
      | Except.ok (genesis, h2) => (NewNode.services env config genesis rawStack h2, h2)

/-- A concrete environment used for examples.  Genesis JSON is stood in for by plain
words: `Unmarshal` accepts the words `testnet`, `rinkeby` and `private` and rejects every
other text, and `Marshal` writes a genesis back as its word. -/
def sampleEnv : Env where
  DiscoveryV5Bootnodes := ["enode://a@1.2.3.4:30303", "enode://b@5.6.7.8:30303"]
  MustParseNode := fun url => url
  clientIdentifier := "gec"
  Version := "1.8.0"
  Join := fun a b => a ++ "/" ++ b
  New := fun conf =>
    if conf.DataDir = "" then Except.error "no datadir"
    else Except.ok { config := conf, serviceFuncs := [] }
  registerErr := fun _ _ => none
  Unmarshal := fun s =>
    if s = "testnet" ∨ s = "rinkeby" ∨ s = "private" then Except.ok { Config := none, rest := s }
    else Except.error "invalid character"
  Marshal := fun g => Except.ok g.rest
  DefaultTestnetGenesisBlock := { Config := some { ChainId := 3 }, rest := "testnet" }
  DefaultRinkebyGenesisBlock := { Config := some { ChainId := 4 }, rest := "rinkeby" }
  TestnetChainConfig := { ChainId := 3 }
  DefaultConfig :=
    { Genesis := none, NetworkId := 1, SyncMode := downloader.SyncMode.FastSync,
      DatabaseCache := 128, untouched := "defaults" }

/-- The memory of a caller that obtained a configuration from `NewNodeConfig()` right after
package initialisation (it lives at address 1) and then set its fields to those of `c`. -/
def sampleHeap (c : NodeConfig) : Heap :=
  (NewNodeConfig (Heap.init sampleEnv)).2.store 1 c

end gec

/-! ## More of package gec: reaching the genesis block of `NewNode` -/

namespace gec

/-- The call `node.New(nodeConf)` on line 125 of `NewNode(datadir, config)` is reached and
returns the protocol stack `rawStack` without an error: the defaulted configuration has
bootstrap nodes, and `node.New` accepts the configuration built from it. -/
def NewNode.StackCreated (env : Env) (datadir : String) (config : Nat) (h : Heap)
    (rawStack : node.Node) : Prop :=
  ∃ bootnodes : Enodes,
    ((NewNode.defaults (some config) h).2.cell config).BooecrapNodes = some bootnodes
    ∧ env.New (NewNode.nodeConf env datadir bootnodes.nodes
        ((NewNode.defaults (some config) h).2.cell config)) = Except.ok rawStack

end gec

/-! ## Package downloader: `metrics.go` -/

namespace downloader

/-- The two kinds of metric the package registers: `metrics.NewRegisteredMeter` and
`metrics.NewRegisteredTimer`. -/
inductive MetricType where
  | meter
  | timer
deriving DecidableEq, Repr

/-- The metric variables of `downloader/metrics.go`. -/
inductive Metric where
  | headerInMeter
  | headerReqTimer
  | headerDropMeter
  | headerTimeoutMeter
  | bodyInMeter
  | bodyReqTimer
  | bodyDropMeter
  | bodyTimeoutMeter
  | receiptInMeter
  | receiptReqTimer
  | receiptDropMeter
  | receiptTimeoutMeter
  | stateInMeter
  | stateDropMeter
deriving DecidableEq, Repr

/-- The name each metric is registered under. -/
def Metric.name : Metric → String
  | Metric.headerInMeter => "ec/downloader/headers/in"
  | Metric.headerReqTimer => "ec/downloader/headers/req"
  | Metric.headerDropMeter => "ec/downloader/headers/drop"
  | Metric.headerTimeoutMeter => "ec/downloader/headers/timeout"
  | Metric.bodyInMeter => "ec/downloader/bodies/in"
  | Metric.bodyReqTimer => "ec/downloader/bodies/req"
  | Metric.bodyDropMeter => "ec/downloader/bodies/drop"
  | Metric.bodyTimeoutMeter => "ec/downloader/bodies/timeout"
  | Metric.receiptInMeter => "ec/downloader/receipts/in"
  | Metric.receiptReqTimer => "ec/downloader/receipts/req"
  | Metric.receiptDropMeter => "ec/downloader/receipts/drop"
  | Metric.receiptTimeoutMeter => "ec/downloader/receipts/timeout"
  | Metric.stateInMeter => "ec/downloader/states/in"
  | Metric.stateDropMeter => "ec/downloader/states/drop"

/-- Whether a metric is registered as a meter or as a timer. -/
def Metric.type : Metric → MetricType
  | Metric.headerReqTimer | Metric.bodyReqTimer | Metric.receiptReqTimer => MetricType.timer
  | Metric.headerInMeter | Metric.headerDropMeter | Metric.headerTimeoutMeter
  | Metric.bodyInMeter | Metric.bodyDropMeter | Metric.bodyTimeoutMeter
  | Metric.receiptInMeter | Metric.receiptDropMeter | Metric.receiptTimeoutMeter
  | Metric.stateInMeter | Metric.stateDropMeter => MetricType.meter

end downloader

/-! ## Package fetcher: `metrics.go` -/

namespace fetcher

/-- The metric variables of `fetcher/metrics.go`. -/
inductive Metric where
  | propAnnounceInMeter
  | propAnnounceOutTimer
  | propAnnounceDropMeter
  | propAnnounceDOSMeter
  | propBroadcastInMeter
  | propBroadcastOutTimer
  | propBroadcastDropMeter
  | propBroadcastDOSMeter
  | headerFetchMeter
  | bodyFetchMeter
  | headerFilterInMeter
  | headerFilterOutMeter
  | bodyFilterInMeter
  | bodyFilterOutMeter
deriving DecidableEq, Repr

/-- The name each metric is registered under. -/
def Metric.name : Metric → String
  | Metric.propAnnounceInMeter => "ec/fetcher/prop/announces/in"
  | Metric.propAnnounceOutTimer => "ec/fetcher/prop/announces/out"
  | Metric.propAnnounceDropMeter => "ec/fetcher/prop/announces/drop"
  | Metric.propAnnounceDOSMeter => "ec/fetcher/prop/announces/dos"
  | Metric.propBroadcastInMeter => "ec/fetcher/prop/broadcasts/in"
  | Metric.propBroadcastOutTimer => "ec/fetcher/prop/broadcasts/out"
  | Metric.propBroadcastDropMeter => "ec/fetcher/prop/broadcasts/drop"
  | Metric.propBroadcastDOSMeter => "ec/fetcher/prop/broadcasts/dos"
  | Metric.headerFetchMeter => "ec/fetcher/fetch/headers"
  | Metric.bodyFetchMeter => "ec/fetcher/fetch/bodies"
  | Metric.headerFilterInMeter => "ec/fetcher/filter/headers/in"
  | Metric.headerFilterOutMeter => "ec/fetcher/filter/headers/out"
  | Metric.bodyFilterInMeter => "ec/fetcher/filter/bodies/in"
  | Metric.bodyFilterOutMeter => "ec/fetcher/filter/bodies/out"

end fetcher

/-! ## Command gtst: `consolecmd_test.go` -/

namespace gtst

/-- Go conversion to a signed 64-bit integer (`int`, `int64`) of an integer value: wrap to
64 bits, read as two's complement. -/
def wrap64 (i : Int) : Int :=
  (i + 2 ^ 63) % 2 ^ 64 - 2 ^ 63

/-- Go `trulyRandInt(lo, hi)`.  The random source is the parameter `draw`: `draw max` is
the number `rand.Int(rand.Reader, max)` returns.  `rand.Int` panics when `max` is not
positive; `none` is that panic. -/
def trulyRandInt (draw : Int → Int) (lo hi : Int) : Option Int :=
  let max := wrap64 (wrap64 (hi - lo))
  if max ≤ 0 then none
  else
    let num := draw max
    some (wrap64 (wrap64 (wrap64 num) + lo))

/-- The contract of `rand.Int`: for a positive `max` the number drawn is uniform in
`[0, max)`; only its range matters here. -/
def ValidDraw (draw : Int → Int) : Prop :=
  ∀ max : Int, 0 < max → 0 ≤ draw max ∧ draw max < max

/-- A value of Go type `int` on a 64-bit platform. -/
def IsInt (i : Int) : Prop :=
  -(2 ^ 63) ≤ i ∧ i < 2 ^ 63

/-- A concrete random source used for examples: it always draws `max - 1`. -/
def sampleDraw (max : Int) : Int :=
  max - 1

end gtst

/-! ## The fetcher's announcement intake (section 4.4 of the specification) -/

namespace fetcher

/-- Modelled from the spec: the announcement handling of the fetcher is not among these
sources (only its meters are).  An `Announcement` is the record (block hash, height, origin
peer, arrival time) of section 3. -/
structure Announcement where
  hash : Nat
  height : Nat
  origin : Nat
  time : Nat
deriving DecidableEq, Repr

/-- Modelled from the spec: the part of the configuration surface the announcement intake
consumes.  `rateLimit` is the per-peer announcement rate limit, `window` the length of a
rate window, `ttl` the time a seen hash is remembered, `maxFuture` the maximum margin by
which an announced height may exceed the local height. -/
structure Config where
  rateLimit : Nat
  window : Nat
  ttl : Nat
  maxFuture : Nat
deriving DecidableEq, Repr

/-- Modelled from the spec: the state the announcement intake owns.  `queue` is the
announcement queue, `seen` the hashes seen with the time they were seen at, `window` the
index of the current rate window, `counts` the number of announcements each peer has spent
of its budget in that window, `marks` the meters marked by 1 so far (the DOS counter is the
number of entries `propAnnounceDOSMeter`), `height` the local chain height. -/
structure Fetcher where
  queue : List Announcement
  seen : List (Nat × Nat)
  window : Nat
  counts : Nat → Nat
  marks : List Metric
  height : Nat

/-- Modelled from the spec: the value of the announce DOS counter. -/
def Fetcher.dos (f : Fetcher) : Nat :=
  f.marks.count Metric.propAnnounceDOSMeter

/-- Modelled from the spec: an identical hash was already seen and is still within its
time to live. -/
def Fetcher.alreadySeen (cfg : Config) (f : Fetcher) (a : Announcement) : Bool :=
  f.seen.any (fun s => s.1 = a.hash ∧ a.time < s.2 + cfg.ttl)

/-- Modelled from the spec: `announce(peer, hash, height)` of section 4.4.  A new rate
window starts every peer with a fresh budget.  An announcement of a peer that has exceeded
its budget in the current window is excess: the DOS counter is incremented and the
announcement is dropped, not queued.  Every other announcement spends one unit of its
peer's budget; it is enqueued unless its hash was already seen or its height is past the
future margin. -/
def announce (cfg : Config) (a : Announcement) (f : Fetcher) : Fetcher :=
  let counts : Nat → Nat := if a.time / cfg.window = f.window then f.counts else fun _ => 0
  if cfg.rateLimit ≤ counts a.origin then
    { f with
      window := a.time / cfg.window,
      counts := counts,
      marks := f.marks ++ [Metric.propAnnounceDOSMeter] }
  else
    let counts1 : Nat → Nat := fun q => if q = a.origin then counts q + 1 else counts q
    if f.alreadySeen cfg a ∨ f.height + cfg.maxFuture < a.height then
      { f with window := a.time / cfg.window, counts := counts1 }
    else
      { f with
        window := a.time / cfg.window,
        counts := counts1,
        queue := f.queue ++ [a],
        seen := (a.hash, a.time) :: f.seen,
        marks := f.marks ++ [Metric.propAnnounceInMeter] }

/-- Modelled from the spec: a sequence of announcements, handled in the order of arrival. -/
def announceAll (cfg : Config) (as : List Announcement) (f : Fetcher) : Fetcher :=
  as.foldl (fun g a => announce cfg a g) f

/-- The number of announcements of `as` that come from the peer `origin`. -/
def sentBy (origin : Nat) (as : List Announcement) : Nat :=
  as.countP (fun a => a.origin = origin)

/-- A fetcher that has seen nothing yet, at local height `height`. -/
def Fetcher.fresh (height : Nat) : Fetcher :=
  { queue := [], seen := [], window := 0, counts := fun _ => 0, marks := [], height := height }

end fetcher

/-! ## The downloader's header merge (sections 4.3 and 5 of the specification) -/

namespace downloader

/-- Modelled from the spec: the scheduling and merging code of the downloader is not among
these sources (only its meters are).  A `SyncTask` of section 3 is a contiguous numeric
range of heights, `start .. start + count - 1`; its result slot is filled by the response. -/
structure SyncTask where
  start : Nat
  count : Nat
deriving DecidableEq, Repr

/-- Modelled from the spec: the heights a task covers, which are the numbers of the headers
of its validated response.  A header is stood in for by its height. -/
def SyncTask.heights (t : SyncTask) : List Nat :=
  List.range' t.start t.count

/-- Modelled from the spec: the assembled result buffer of the header stage.  `cursor` is
the sync cursor, the next height to commit; `pending` holds the headers that have arrived
but are not committed yet; `committed` is the merged result, in commit order. -/
structure HeaderMerger where
  cursor : Nat
  pending : List Nat
  committed : List Nat
deriving DecidableEq, Repr

/-- Modelled from the spec: an empty buffer whose cursor stands just above the ancestor. -/
def HeaderMerger.start (lo : Nat) : HeaderMerger :=
  { cursor := lo, pending := [], committed := [] }

/-- Modelled from the spec: commit in ascending, gap-free order.  As long as the header at
the cursor has arrived it is moved to the result and the cursor advances; `fuel` bounds the
number of rounds. -/
def HeaderMerger.flush : Nat → HeaderMerger → HeaderMerger
  | 0, m => m
  | fuel + 1, m =>
    if m.cursor ∈ m.pending then
      HeaderMerger.flush fuel
        { cursor := m.cursor + 1,
          pending := m.pending.erase m.cursor,
          committed := m.committed ++ [m.cursor] }
    else m

/-- Modelled from the spec: the response of task `t` arrives.  Its headers are buffered and
everything that is now contiguous with the cursor is committed. -/
def HeaderMerger.deliver (t : SyncTask) (m : HeaderMerger) : HeaderMerger :=
  HeaderMerger.flush (m.pending ++ t.heights).length
    { m with pending := m.pending ++ t.heights }

/-- Modelled from the spec: the responses of the tasks `arrived` arrive in this order. -/
def HeaderMerger.deliverAll (arrived : List SyncTask) (m : HeaderMerger) : HeaderMerger :=
  arrived.foldl (fun g t => HeaderMerger.deliver t g) m

/-- The ranges of the tasks are pairwise disjoint. -/
def Disjoint (tasks : List SyncTask) : Prop :=
  tasks.Pairwise (fun s t => ∀ x, x ∈ s.heights → x ∉ t.heights)

/-- The ranges of the tasks cover exactly the heights `lo .. hi - 1`. -/
def Covers (tasks : List SyncTask) (lo hi : Nat) : Prop :=
  ∀ x, (lo ≤ x ∧ x < hi) ↔ ∃ t ∈ tasks, x ∈ t.heights

end downloader

/-! ## The peer registry (section 4.1 of the specification) -/

namespace registry

/-- Modelled from the spec: the peer registry is not among these sources.  A `Peer` of
section 3 has an identity, an advertised head (block hash and height), a protocol version
and an idle/busy flag. -/
structure Peer where
  id : Nat
  head : Nat
  height : Nat
  version : Nat
  busy : Bool
deriving DecidableEq, Repr

/-- Modelled from the spec: the errors of the registry operations. -/
inductive Error where
  | DuplicatePeer
  | UnknownPeer
deriving DecidableEq, Repr

/-- Modelled from the spec: the registry, its peers in the order they were registered. -/
structure PeerRegistry where
  peers : List Peer
deriving DecidableEq, Repr

/-- Modelled from the spec: `register(peer)` fails with `DuplicatePeer` if the id is
already present. -/
def PeerRegistry.register (r : PeerRegistry) (peer : Peer) : Except Error PeerRegistry :=
  if r.peers.any (fun q => q.id = peer.id) then Except.error Error.DuplicatePeer
  else Except.ok { peers := r.peers ++ [peer] }

/-- Modelled from the spec: `unregister(id)` removes a peer. -/
def PeerRegistry.unregister (r : PeerRegistry) (id : Nat) : Except Error PeerRegistry :=
  if r.peers.any (fun q => q.id = id) then
    Except.ok { peers := r.peers.filter (fun q => q.id ≠ id) }
  else Except.error Error.UnknownPeer

/-- Modelled from the spec: `updateHead(id, hash, height)` records the head a peer
advertises. -/
def PeerRegistry.updateHead (r : PeerRegistry) (id hash height : Nat) : PeerRegistry :=
  { peers := r.peers.map (fun q => if q.id = id then { q with head := hash, height := height }
      else q) }

/-- Modelled from the spec: one step of the selection of `bestPeer()`.  A later peer
replaces the best one so far only if it is strictly higher, so that among equally high
peers the earliest registered one stays. -/
def pick (best : Option Peer) (p : Peer) : Option Peer :=
  match best with
  | none => some p
  | some b => if b.height < p.height then some p else some b

/-- Modelled from the spec: `bestPeer()` returns the peer with the highest verified height,
deterministic tie-break by earliest-registered. -/
def PeerRegistry.bestPeer (r : PeerRegistry) : Option Peer :=
  r.peers.foldl pick none

/-- The empty registry. -/
def PeerRegistry.empty : PeerRegistry :=
  { peers := [] }

end registry

namespace downloader

/-- The invariant of the header merge, relative to the set `D` of heights delivered so far
and the height `lo` the merge started at: the buffer holds delivered heights only, each
once, none below the cursor; every delivered height is committed or buffered; everything
between `lo` and the cursor was delivered; and the result is the run `lo .. cursor - 1`. -/
def MergeInv (D : Nat → Prop) (lo : Nat) (m : HeaderMerger) : Prop :=
  (∀ x ∈ m.pending, D x)
  ∧ (∀ x, D x → x < m.cursor ∨ x ∈ m.pending)
  ∧ (∀ x, lo ≤ x → x < m.cursor → D x)
  ∧ lo ≤ m.cursor
  ∧ m.committed = List.range' lo (m.cursor - lo)
  ∧ (∀ x ∈ m.pending, m.cursor ≤ x)
  ∧ m.pending.Nodup

end downloader

/-! ## More of package gec: the configured node -/

namespace gec

/-- The configuration `NewNode(datadir, config)` hands to `node.New` on line 125: the value
of `nodeConf` built on lines 111-124 from the defaulted configuration.  `none` is the panic
of `config.BooecrapNodes.nodes` on a nil pointer. -/
def NewNode.stackConf (env : Env) (datadir : String) (config : Option Nat) (h : Heap) :
    Option node.Config :=
  let d := NewNode.defaults config h
  match (d.2.cell d.1).BooecrapNodes with
  | none => none
  | some bootnodes => some (NewNode.nodeConf env datadir bootnodes.nodes (d.2.cell d.1))

/-- The service constructors the configuration `c` asks for, in the order in which lines
145-176 of `NewNode` register them: the ecchain service if `ecchainEnabled`, the stats
reporter if in addition `ecchainNeecats` is not empty, and Whisper if `WhisperEnabled`. -/
def NewNode.requested (env : Env) (config : Nat) (genesis : Option core.Genesis)
    (c : NodeConfig) : List node.ServiceConstructor :=
  (if c.ecchainEnabled then
      node.ServiceConstructor.les (NewNode.ecConf env genesis c)
        :: (if c.ecchainNeecats ≠ "" then [node.ServiceConstructor.ecstats config] else [])
    else [])
    ++ (if c.WhisperEnabled then [node.ServiceConstructor.whisper] else [])

/-- The protocol stack `rawStack` as lines 145-176 of `NewNode` leave it, whether they end
in the final return or in one of the error returns: every `Register` call that succeeded
has added its constructor.  The second component of `afterEc` tells whether `NewNode` goes
on to the Whisper block. -/
def NewNode.servicesStack (env : Env) (config : Nat) (genesis : Option core.Genesis)
    (rawStack : node.Node) (h : Heap) : node.Node :=
  let c := h.cell config
  let afterEc : node.Node × Bool :=
    if c.ecchainEnabled then
      let ecConf := NewNode.ecConf env genesis c
      match Register env rawStack (node.ServiceConstructor.les ecConf) with
      | (some _, s1) => (s1, false)
      | (none, s1) =>
        if c.ecchainNeecats ≠ "" then
          match Register env s1 (node.ServiceConstructor.ecstats config) with
          | (some _, s2) => (s2, false)
          | (none, s2) => (s2, true)
        else (s1, true)
    else (rawStack, true)
  if afterEc.2 && c.WhisperEnabled then
    (Register env afterEc.1 node.ServiceConstructor.whisper).2
  else afterEc.1

/-- The protocol stack `rawStack` at the moment `NewNode(datadir, config)` returns, also
when it returns an error: `none` when no stack exists (the panic, or `node.New` failed),
the stack as `node.New` made it when `NewNode` returns from the genesis block, and the
stack as the service block leaves it otherwise. -/
def NewNode.stack (env : Env) (datadir : String) (config : Option Nat) (h : Heap) :
    Option node.Node :=
  let d := NewNode.defaults config h
  match NewNode.stackConf env datadir config h with
  | none => none
  | some conf =>
    match env.New conf with
    | Except.error _ => none
    | Except.ok rawStack =>
      match NewNode.genesis env d.1 d.2 with
      | Except.error _ => some rawStack
      | Except.ok (genesis, h2) => some (NewNode.servicesStack env d.1 genesis rawStack h2)

end gec

/-! # Theorems -/

/-! ## Helper lemmas -/

theorem int64_of_uint32 (s : Fin 4294967296) : int64 s.val = (s.val : Int) := by
  have h : s.val < 4294967296 := s.isLt
  have h1 : s.val % 2 ^ 64 = s.val := Nat.mod_eq_of_lt (by omega)
  unfold int64
  rw [h1]
  have h2 : s.val < 2 ^ 63 := by omega
  rw [if_pos h2]

namespace p2p

theorem streamCalls_append {M : Type} (a b : List (Call M)) :
    streamCalls (a ++ b) = streamCalls a ++ streamCalls b := by
  induction a with
  | nil => rfl
  | cons c cs ih => cases c <;> simp [streamCalls, ih]

theorem marks_append {M : Type} (a b : List (Call M)) :
    marks (a ++ b) = marks a ++ marks b := by
  induction a with
  | nil => rfl
  | cons c cs ih => cases c <;> simp [marks, ih]

end p2p

namespace ec

open p2p Meter

theorem inbound_packets_name (m : Meter) (hd : m.direction = Direction.inbound)
    (hq : m.quantity = Quantity.packets) : m.name = "ec/" ++ m.kind.path ++ "/in/packets" := by
  cases m <;> first | exact absurd hd (by decide) | exact absurd hq (by decide) | decide

theorem inbound_traffic_name (m : Meter) (hd : m.direction = Direction.inbound)
    (hq : m.quantity = Quantity.traffic) : m.name = "ec/" ++ m.kind.path ++ "/in/traffic" := by
  cases m <;> first | exact absurd hd (by decide) | exact absurd hq (by decide) | decide

theorem outbound_packets_name (m : Meter) (hd : m.direction = Direction.outbound)
    (hq : m.quantity = Quantity.packets) : m.name = "ec/" ++ m.kind.path ++ "/out/packets" := by
  cases m <;> first | exact absurd hd (by decide) | exact absurd hq (by decide) | decide

theorem outbound_traffic_name (m : Meter) (hd : m.direction = Direction.outbound)
    (hq : m.quantity = Quantity.traffic) : m.name = "ec/" ++ m.kind.path ++ "/out/traffic" := by
  cases m <;> first | exact absurd hd (by decide) | exact absurd hq (by decide) | decide
theorem ReadMsg_ok {σ : Type} (c : ProtocolConsts) (rw : meteredMsgReadWriter σ)
    (w : World σ Meter) (h : (rw.MsgReadWriter.ReadMsg w.stream).1.2 = none) :
    rw.ReadMsg c w =
      ((rw.MsgReadWriter.ReadMsg w.stream).1,
        { stream := (rw.MsgReadWriter.ReadMsg w.stream).2,
          calls := w.calls ++
            [Call.ReadMsg,
              Call.Mark (meteredMsgReadWriter.ReadMsg.meters c rw.version
                (rw.MsgReadWriter.ReadMsg w.stream).1.1.Code).1 1,
              Call.Mark (meteredMsgReadWriter.ReadMsg.meters c rw.version
                (rw.MsgReadWriter.ReadMsg w.stream).1.1.Code).2
                ((rw.MsgReadWriter.ReadMsg w.stream).1.1.Size.val : Int)] }) := by
  simp only [meteredMsgReadWriter.ReadMsg, callReadMsg, Mark, h, int64_of_uint32]
  simp [Prod.ext_iff, h]

theorem ReadMsg_err {σ : Type} (c : ProtocolConsts) (rw : meteredMsgReadWriter σ)
    (w : World σ Meter) (h : (rw.MsgReadWriter.ReadMsg w.stream).1.2 ≠ none) :
    rw.ReadMsg c w =
      ((rw.MsgReadWriter.ReadMsg w.stream).1,
        { stream := (rw.MsgReadWriter.ReadMsg w.stream).2,
          calls := w.calls ++ [Call.ReadMsg] }) := by
  simp [meteredMsgReadWriter.ReadMsg, callReadMsg, h]

theorem WriteMsg_eq {σ : Type} (c : ProtocolConsts) (rw : meteredMsgReadWriter σ)
    (msg : Msg) (w : World σ Meter) :
    rw.WriteMsg c msg w =
      ((rw.MsgReadWriter.WriteMsg msg w.stream).1,
        { stream := (rw.MsgReadWriter.WriteMsg msg w.stream).2,
          calls := w.calls ++
            [Call.Mark (meteredMsgReadWriter.WriteMsg.meters c rw.version msg.Code).1 1,
              Call.Mark (meteredMsgReadWriter.WriteMsg.meters c rw.version msg.Code).2
                (msg.Size.val : Int),
              Call.WriteMsg msg] }) := by
  simp [meteredMsgReadWriter.WriteMsg, callWriteMsg, Mark, int64_of_uint32]

end ec

namespace les

open p2p Meter

theorem lesReadMsg_ok {σ : Type} (rw : meteredMsgReadWriter σ)
    (w : World σ Meter) (h : (rw.MsgReadWriter.ReadMsg w.stream).1.2 = none) :
    rw.ReadMsg w =
      ((rw.MsgReadWriter.ReadMsg w.stream).1,
        { stream := (rw.MsgReadWriter.ReadMsg w.stream).2,
          calls := w.calls ++
            [Call.ReadMsg, Call.Mark miscInPacketsMeter 1,
              Call.Mark miscInTrafficMeter
                ((rw.MsgReadWriter.ReadMsg w.stream).1.1.Size.val : Int)] }) := by
  simp only [meteredMsgReadWriter.ReadMsg, callReadMsg, Mark, h, int64_of_uint32]
  simp [Prod.ext_iff, h]

theorem lesReadMsg_err {σ : Type} (rw : meteredMsgReadWriter σ)
    (w : World σ Meter) (h : (rw.MsgReadWriter.ReadMsg w.stream).1.2 ≠ none) :
    rw.ReadMsg w =
      ((rw.MsgReadWriter.ReadMsg w.stream).1,
        { stream := (rw.MsgReadWriter.ReadMsg w.stream).2,
          calls := w.calls ++ [Call.ReadMsg] }) := by
  simp [meteredMsgReadWriter.ReadMsg, callReadMsg, h]

theorem lesWriteMsg_eq {σ : Type} (rw : meteredMsgReadWriter σ)
    (msg : Msg) (w : World σ Meter) :
    rw.WriteMsg msg w =
      ((rw.MsgReadWriter.WriteMsg msg w.stream).1,
        { stream := (rw.MsgReadWriter.WriteMsg msg w.stream).2,
          calls := w.calls ++
            [Call.Mark miscOutPacketsMeter 1, Call.Mark miscOutTrafficMeter (msg.Size.val : Int),
              Call.WriteMsg msg] }) := by
  simp [meteredMsgReadWriter.WriteMsg, callWriteMsg, Mark, int64_of_uint32]

end les

namespace ec

open p2p Meter

theorem readMeters_shape (c : ProtocolConsts) (version : Int) (Code : Nat) :
    (meteredMsgReadWriter.ReadMsg.meters c version Code).1.direction = Direction.inbound
    ∧ (meteredMsgReadWriter.ReadMsg.meters c version Code).1.quantity = Quantity.packets
    ∧ (meteredMsgReadWriter.ReadMsg.meters c version Code).2.direction = Direction.inbound
    ∧ (meteredMsgReadWriter.ReadMsg.meters c version Code).2.quantity = Quantity.traffic
    ∧ (meteredMsgReadWriter.ReadMsg.meters c version Code).1.kind
        = (meteredMsgReadWriter.ReadMsg.meters c version Code).2.kind := by
  unfold meteredMsgReadWriter.ReadMsg.meters
  split_ifs <;> simp [Meter.direction, Meter.quantity, Meter.kind]

theorem writeMeters_shape (c : ProtocolConsts) (version : Int) (Code : Nat) :
    (meteredMsgReadWriter.WriteMsg.meters c version Code).1.direction = Direction.outbound
    ∧ (meteredMsgReadWriter.WriteMsg.meters c version Code).1.quantity = Quantity.packets
    ∧ (meteredMsgReadWriter.WriteMsg.meters c version Code).2.direction = Direction.outbound
    ∧ (meteredMsgReadWriter.WriteMsg.meters c version Code).2.quantity = Quantity.traffic
    ∧ (meteredMsgReadWriter.WriteMsg.meters c version Code).1.kind
        = (meteredMsgReadWriter.WriteMsg.meters c version Code).2.kind := by
  unfold meteredMsgReadWriter.WriteMsg.meters
  split_ifs <;> simp [Meter.direction, Meter.quantity, Meter.kind]

theorem readMeters_kind (c : ProtocolConsts) (hd : c.Distinct) (version : Int)
    (Code : Nat) :
    KindTableAt c version Code (meteredMsgReadWriter.ReadMsg.meters c version Code).1.kind := by
  obtain ⟨e, a1, a2, a3, a4, a5, a6, a7⟩ := c
  simp only [ProtocolConsts.Distinct, List.nodup_cons, List.mem_cons, List.mem_singleton,
    not_or, List.not_mem_nil, not_false_eq_true, List.nodup_nil, and_true] at hd
  simp only [KindTableAt, meteredMsgReadWriter.ReadMsg.meters, List.mem_cons,
    List.mem_singleton, not_or, List.not_mem_nil, not_false_eq_true, and_true]
  refine ⟨?_, ?_, ?_, ?_, ?_, ?_, ?_, ?_⟩ <;> intro hc <;> split_ifs <;>
    simp_all [Meter.kind]

theorem writeMeters_kind (c : ProtocolConsts) (hd : c.Distinct) (version : Int)
    (Code : Nat) :
    KindTableAt c version Code (meteredMsgReadWriter.WriteMsg.meters c version Code).1.kind := by
  obtain ⟨e, a1, a2, a3, a4, a5, a6, a7⟩ := c
  simp only [ProtocolConsts.Distinct, List.nodup_cons, List.mem_cons, List.mem_singleton,
    not_or, List.not_mem_nil, not_false_eq_true, List.nodup_nil, and_true] at hd
  simp only [KindTableAt, meteredMsgReadWriter.WriteMsg.meters, List.mem_cons,
    List.mem_singleton, not_or, List.not_mem_nil, not_false_eq_true, and_true]
  refine ⟨?_, ?_, ?_, ?_, ?_, ?_, ?_, ?_⟩ <;> intro hc <;> split_ifs <;>
    simp_all [Meter.kind]

theorem readMeters_nodeData (c : ProtocolConsts) (hd : c.Distinct) (version : Int) :
    meteredMsgReadWriter.ReadMsg.meters c version c.NodeDataMsg
      = if version ≥ c.ec63 then (reqStateInPacketsMeter, reqStateInTrafficMeter)
        else (miscInPacketsMeter, miscInTrafficMeter) := by
  obtain ⟨e, a1, a2, a3, a4, a5, a6, a7⟩ := c
  simp only [ProtocolConsts.Distinct, List.nodup_cons, List.mem_cons, List.mem_singleton,
    not_or, List.not_mem_nil, not_false_eq_true, List.nodup_nil, and_true] at hd
  simp only [meteredMsgReadWriter.ReadMsg.meters]
  split_ifs <;> simp_all

theorem readMeters_receipts (c : ProtocolConsts) (hd : c.Distinct) (version : Int) :
    meteredMsgReadWriter.ReadMsg.meters c version c.ReceiptsMsg
      = if version ≥ c.ec63 then (reqReceiptInPacketsMeter, reqReceiptInTrafficMeter)
        else (miscInPacketsMeter, miscInTrafficMeter) := by
  obtain ⟨e, a1, a2, a3, a4, a5, a6, a7⟩ := c
  simp only [ProtocolConsts.Distinct, List.nodup_cons, List.mem_cons, List.mem_singleton,
    not_or, List.not_mem_nil, not_false_eq_true, List.nodup_nil, and_true] at hd
  simp only [meteredMsgReadWriter.ReadMsg.meters]
  split_ifs <;> simp_all

theorem readMeters_other (c : ProtocolConsts) (v1 v2 : Int) (Code : Nat)
    (h1 : Code ≠ c.NodeDataMsg) (h2 : Code ≠ c.ReceiptsMsg) :
    meteredMsgReadWriter.ReadMsg.meters c v1 Code
      = meteredMsgReadWriter.ReadMsg.meters c v2 Code := by
  simp [meteredMsgReadWriter.ReadMsg.meters, h1, h2]

theorem writeMeters_nodeData (c : ProtocolConsts) (hd : c.Distinct) (version : Int) :
    meteredMsgReadWriter.WriteMsg.meters c version c.NodeDataMsg
      = if version ≥ c.ec63 then (reqStateOutPacketsMeter, reqStateOutTrafficMeter)
        else (miscOutPacketsMeter, miscOutTrafficMeter) := by
  obtain ⟨e, a1, a2, a3, a4, a5, a6, a7⟩ := c
  simp only [ProtocolConsts.Distinct, List.nodup_cons, List.mem_cons, List.mem_singleton,
    not_or, List.not_mem_nil, not_false_eq_true, List.nodup_nil, and_true] at hd
  simp only [meteredMsgReadWriter.WriteMsg.meters]
  split_ifs <;> simp_all

theorem writeMeters_receipts (c : ProtocolConsts) (hd : c.Distinct) (version : Int) :
    meteredMsgReadWriter.WriteMsg.meters c version c.ReceiptsMsg
      = if version ≥ c.ec63 then (reqReceiptOutPacketsMeter, reqReceiptOutTrafficMeter)
        else (miscOutPacketsMeter, miscOutTrafficMeter) := by
  obtain ⟨e, a1, a2, a3, a4, a5, a6, a7⟩ := c
  simp only [ProtocolConsts.Distinct, List.nodup_cons, List.mem_cons, List.mem_singleton,
    not_or, List.not_mem_nil, not_false_eq_true, List.nodup_nil, and_true] at hd
  simp only [meteredMsgReadWriter.WriteMsg.meters]
  split_ifs <;> simp_all

theorem writeMeters_other (c : ProtocolConsts) (v1 v2 : Int) (Code : Nat)
    (h1 : Code ≠ c.NodeDataMsg) (h2 : Code ≠ c.ReceiptsMsg) :
    meteredMsgReadWriter.WriteMsg.meters c v1 Code
      = meteredMsgReadWriter.WriteMsg.meters c v2 Code := by
  simp [meteredMsgReadWriter.WriteMsg.meters, h1, h2]

theorem ReadMsg_calls {σ : Type} (c : ProtocolConsts) (rw : meteredMsgReadWriter σ)
    (w : World σ Meter) (msg : Msg) (h : (rw.MsgReadWriter.ReadMsg w.stream).1 = (msg, none)) :
    (rw.ReadMsg c w).2.calls
      = w.calls ++ readLog (meteredMsgReadWriter.ReadMsg.meters c rw.version msg.Code).1
          (meteredMsgReadWriter.ReadMsg.meters c rw.version msg.Code).2 msg := by
  have h0 : (rw.MsgReadWriter.ReadMsg w.stream).1.2 = none := by rw [h]
  rw [ReadMsg_ok c rw w h0, h]
  rfl

theorem WriteMsg_calls {σ : Type} (c : ProtocolConsts) (rw : meteredMsgReadWriter σ)
    (w : World σ Meter) (msg : Msg) :
    (rw.WriteMsg c msg w).2.calls
      = w.calls ++ writeLog (meteredMsgReadWriter.WriteMsg.meters c rw.version msg.Code).1
          (meteredMsgReadWriter.WriteMsg.meters c rw.version msg.Code).2 msg := by
  rw [WriteMsg_eq]
  rfl

end ec

/-! ## The metered message stream -/

/-- C1: metering is transparent.  For the ec and the les wrapper alike, `ReadMsg` returns
exactly the pair (message, error) that the wrapped stream's `ReadMsg` returns, `WriteMsg`
returns exactly the error of the wrapped stream's `WriteMsg` on the unmodified message, the
wrapped stream is left in the state one such call leaves it in, and apart from the meter
marks the call log grows by exactly that one call. -/
theorem metering_transparent {σ : Type} (c : ec.ProtocolConsts) (msg : p2p.Msg)
    (rwE : ec.meteredMsgReadWriter σ) (wE : p2p.World σ ec.Meter)
    (rwL : les.meteredMsgReadWriter σ) (wL : p2p.World σ les.Meter) :
    ((rwE.ReadMsg c wE).1 = (rwE.MsgReadWriter.ReadMsg wE.stream).1
      ∧ (rwE.ReadMsg c wE).2.stream = (rwE.MsgReadWriter.ReadMsg wE.stream).2
      ∧ p2p.streamCalls (rwE.ReadMsg c wE).2.calls
          = p2p.streamCalls wE.calls ++ [p2p.Call.ReadMsg]
      ∧ (rwE.WriteMsg c msg wE).1 = (rwE.MsgReadWriter.WriteMsg msg wE.stream).1
      ∧ (rwE.WriteMsg c msg wE).2.stream = (rwE.MsgReadWriter.WriteMsg msg wE.stream).2
      ∧ p2p.streamCalls (rwE.WriteMsg c msg wE).2.calls
          = p2p.streamCalls wE.calls ++ [p2p.Call.WriteMsg msg])
    ∧ ((rwL.ReadMsg wL).1 = (rwL.MsgReadWriter.ReadMsg wL.stream).1
      ∧ (rwL.ReadMsg wL).2.stream = (rwL.MsgReadWriter.ReadMsg wL.stream).2
      ∧ p2p.streamCalls (rwL.ReadMsg wL).2.calls
          = p2p.streamCalls wL.calls ++ [p2p.Call.ReadMsg]
      ∧ (rwL.WriteMsg msg wL).1 = (rwL.MsgReadWriter.WriteMsg msg wL.stream).1
      ∧ (rwL.WriteMsg msg wL).2.stream = (rwL.MsgReadWriter.WriteMsg msg wL.stream).2
      ∧ p2p.streamCalls (rwL.WriteMsg msg wL).2.calls
          = p2p.streamCalls wL.calls ++ [p2p.Call.WriteMsg msg]) := by
  refine ⟨⟨?_, ?_, ?_, ?_, ?_, ?_⟩, ⟨?_, ?_, ?_, ?_, ?_, ?_⟩⟩
  · by_cases h : (rwE.MsgReadWriter.ReadMsg wE.stream).1.2 = none
    · rw [ec.ReadMsg_ok c rwE wE h]
    · rw [ec.ReadMsg_err c rwE wE h]
  · by_cases h : (rwE.MsgReadWriter.ReadMsg wE.stream).1.2 = none
    · rw [ec.ReadMsg_ok c rwE wE h]
    · rw [ec.ReadMsg_err c rwE wE h]
  · by_cases h : (rwE.MsgReadWriter.ReadMsg wE.stream).1.2 = none
    · rw [ec.ReadMsg_ok c rwE wE h]
      simp [p2p.streamCalls_append, p2p.streamCalls]
    · rw [ec.ReadMsg_err c rwE wE h]
      simp [p2p.streamCalls_append, p2p.streamCalls]
  · rw [ec.WriteMsg_eq]
  · rw [ec.WriteMsg_eq]
  · rw [ec.WriteMsg_eq]
    simp [p2p.streamCalls_append, p2p.streamCalls]
  · by_cases h : (rwL.MsgReadWriter.ReadMsg wL.stream).1.2 = none
    · rw [les.lesReadMsg_ok rwL wL h]
    · rw [les.lesReadMsg_err rwL wL h]
  · by_cases h : (rwL.MsgReadWriter.ReadMsg wL.stream).1.2 = none
    · rw [les.lesReadMsg_ok rwL wL h]
    · rw [les.lesReadMsg_err rwL wL h]
  · by_cases h : (rwL.MsgReadWriter.ReadMsg wL.stream).1.2 = none
    · rw [les.lesReadMsg_ok rwL wL h]
      simp [p2p.streamCalls_append, p2p.streamCalls]
    · rw [les.lesReadMsg_err rwL wL h]
      simp [p2p.streamCalls_append, p2p.streamCalls]
  · rw [les.lesWriteMsg_eq]
  · rw [les.lesWriteMsg_eq]
  · rw [les.lesWriteMsg_eq]
    simp [p2p.streamCalls_append, p2p.streamCalls]

/-- C4: `ReadMsg` short-circuits on an error.  Whenever the wrapped stream's `ReadMsg`
returns a non-nil error, the metered `ReadMsg` of ec and of les returns the wrapped
stream's pair, with that error, and logs no meter mark: the log grows by the call of the
wrapped `ReadMsg` alone. -/
theorem ReadMsg_short_circuit {σ : Type} (c : ec.ProtocolConsts)
    (rwE : ec.meteredMsgReadWriter σ) (wE : p2p.World σ ec.Meter)
    (rwL : les.meteredMsgReadWriter σ) (wL : p2p.World σ les.Meter)
    (hE : (rwE.MsgReadWriter.ReadMsg wE.stream).1.2 ≠ none)
    (hL : (rwL.MsgReadWriter.ReadMsg wL.stream).1.2 ≠ none) :
    ((rwE.ReadMsg c wE).1 = (rwE.MsgReadWriter.ReadMsg wE.stream).1
      ∧ (rwE.ReadMsg c wE).1.2 ≠ none
      ∧ (rwE.ReadMsg c wE).2.calls = wE.calls ++ [p2p.Call.ReadMsg]
      ∧ p2p.marks (rwE.ReadMsg c wE).2.calls = p2p.marks wE.calls)
    ∧ ((rwL.ReadMsg wL).1 = (rwL.MsgReadWriter.ReadMsg wL.stream).1
      ∧ (rwL.ReadMsg wL).1.2 ≠ none
      ∧ (rwL.ReadMsg wL).2.calls = wL.calls ++ [p2p.Call.ReadMsg]
      ∧ p2p.marks (rwL.ReadMsg wL).2.calls = p2p.marks wL.calls) := by
  rw [ec.ReadMsg_err c rwE wE hE, les.lesReadMsg_err rwL wL hL]
  refine ⟨⟨rfl, hE, rfl, ?_⟩, ⟨rfl, hL, rfl, ?_⟩⟩ <;>
    simp [p2p.marks_append, p2p.marks]

/-- C4, at a concrete input: reading from an empty pipe gives the error `EOF`. -/
theorem ReadMsg_short_circuit_witness :
    ((ec.meteredMsgReadWriter.mk p2p.pipe 63).ReadMsg ec.sampleConsts ⟨([], []), []⟩).1.2
        = some "EOF"
    ∧ p2p.marks
        ((ec.meteredMsgReadWriter.mk p2p.pipe 63).ReadMsg ec.sampleConsts ⟨([], []), []⟩).2.calls
        = []
    ∧ p2p.marks ((les.meteredMsgReadWriter.mk p2p.pipe 2).ReadMsg ⟨([], []), []⟩).2.calls = [] :=
  have h := ReadMsg_short_circuit ec.sampleConsts (ec.meteredMsgReadWriter.mk p2p.pipe 63)
    ⟨([], []), []⟩ (les.meteredMsgReadWriter.mk p2p.pipe 2) ⟨([], []), []⟩
    (by decide) (by decide)
  ⟨by rw [h.1.1]; decide, h.1.2.2.2, h.2.2.2.2⟩

/-- C5: `newMeteredMsgWriter(rw)` returns `rw` itself when the metrics system is disabled,
and otherwise a metered wrapper whose wrapped stream is `rw` and whose version is 0, in ec
and in les. -/
theorem newMeteredMsgWriter_spec {σ : Type} (rw : p2p.MsgReadWriter σ) :
    ec.newMeteredMsgWriter false rw = ec.Stream.original rw
    ∧ ec.newMeteredMsgWriter true rw = ec.Stream.metered ⟨rw, 0⟩
    ∧ les.newMeteredMsgWriter false rw = les.Stream.original rw
    ∧ les.newMeteredMsgWriter true rw = les.Stream.metered ⟨rw, 0⟩ :=
  ⟨rfl, rfl, rfl, rfl⟩

/-! ## `SetHead` -/

/-- C6: `SetHead(number)` cancels the synchronisation before it rewinds the chain.  For
every number, `ecApiBackend.SetHead` and `LesApiBackend.SetHead` call the downloader's
`Cancel` exactly once and then the blockchain's `SetHead(number)` exactly once, in that
order, and the node is left in the state these two calls leave it in. -/
theorem SetHead_cancels_first {ω : Type} (bE : ec.ecApiBackend ω) (bL : les.LesApiBackend ω)
    (number : Nat) (w : api.World ω) :
    ((bE.SetHead number w).calls = w.calls ++ [api.Call.Cancel, api.Call.SetHead number]
      ∧ (bE.SetHead number w).state = bE.ec.SetHead number (bE.ec.Cancel w.state))
    ∧ ((bL.SetHead number w).calls = w.calls ++ [api.Call.Cancel, api.Call.SetHead number]
      ∧ (bL.SetHead number w).state = bL.ec.SetHead number (bL.ec.Cancel w.state)) := by
  simp [ec.ecApiBackend.SetHead, les.LesApiBackend.SetHead, api.callCancel, api.callSetHead]

/-- C2, as stated, fails: a wrapper fresh from `newMeteredMsgWriter` has version 0, and a
successfully read (or written) message with code `NodeDataMsg` is then counted under the
misc meters, not under the req/states meters the table of kinds names for that code. -/
theorem NodeData_counted_misc_at_version_0 :
    ec.sampleConsts.Distinct
    ∧ ec.newMeteredMsgWriter true p2p.pipe = ec.Stream.metered ⟨p2p.pipe, 0⟩
    ∧ (p2p.Msg.mk 14 100 [] 0).Code = ec.sampleConsts.NodeDataMsg
    ∧ ((ec.meteredMsgReadWriter.mk p2p.pipe 0).ReadMsg ec.sampleConsts
          ⟨([p2p.Msg.mk 14 100 [] 0], []), []⟩).1 = (p2p.Msg.mk 14 100 [] 0, none)
    ∧ ((ec.meteredMsgReadWriter.mk p2p.pipe 0).ReadMsg ec.sampleConsts
          ⟨([p2p.Msg.mk 14 100 [] 0], []), []⟩).2.calls
        = p2p.readLog ec.Meter.miscInPacketsMeter ec.Meter.miscInTrafficMeter
            (p2p.Msg.mk 14 100 [] 0)
    ∧ ((ec.meteredMsgReadWriter.mk p2p.pipe 0).WriteMsg ec.sampleConsts
          (p2p.Msg.mk 14 100 [] 0) ⟨([], []), []⟩).2.calls
        = p2p.writeLog ec.Meter.miscOutPacketsMeter ec.Meter.miscOutTrafficMeter
            (p2p.Msg.mk 14 100 [] 0)
    ∧ ¬ ec.KindTable ec.sampleConsts (p2p.Msg.mk 14 100 [] 0).Code
          ec.Meter.miscInPacketsMeter.kind
    ∧ ¬ ec.KindTable ec.sampleConsts (p2p.Msg.mk 14 100 [] 0).Code
          ec.Meter.miscOutPacketsMeter.kind := by
  refine ⟨by decide, rfl, rfl, by decide, by decide, by decide, ?_, ?_⟩
  · intro h
    exact absurd (h.2.2.1 rfl) (by decide)
  · intro h
    exact absurd (h.2.2.1 rfl) (by decide)

/-- C2, amended: packet and byte counts are kept per message kind and direction.  With
pairwise distinct message codes, a successful read through the ec wrapper logs, after the
wrapped `ReadMsg`, exactly one `Mark(1)` on an inbound packets meter and exactly one
`Mark(Size)` on an inbound traffic meter of the same kind, and a write logs the same on the
outbound meters before the wrapped `WriteMsg`.  The kind follows the table of the message
codes, where `NodeDataMsg` and `ReceiptsMsg` select req/states and req/receipts only when the
wrapper's version is at least `ec63` and misc otherwise.  The two meters are the ones
registered under the names `ec/<kind>/in/packets` and `ec/<kind>/in/traffic` (`out` for a
write).  A failed read marks nothing. -/
theorem counts_per_kind_and_direction {σ : Type} (c : ec.ProtocolConsts) (hd : c.Distinct)
    (rw : ec.meteredMsgReadWriter σ) (w : p2p.World σ ec.Meter) (msg : p2p.Msg) :
    ((rw.MsgReadWriter.ReadMsg w.stream).1 = (msg, none) →
      ∃ packets traffic : ec.Meter,
        (rw.ReadMsg c w).2.calls = w.calls ++ p2p.readLog packets traffic msg
        ∧ packets.direction = ec.Direction.inbound ∧ packets.quantity = ec.Quantity.packets
        ∧ traffic.direction = ec.Direction.inbound ∧ traffic.quantity = ec.Quantity.traffic
        ∧ packets.kind = traffic.kind
        ∧ packets.name = "ec/" ++ packets.kind.path ++ "/in/packets"
        ∧ traffic.name = "ec/" ++ packets.kind.path ++ "/in/traffic"
        ∧ ec.KindTableAt c rw.version msg.Code packets.kind)
    ∧ ((rw.MsgReadWriter.ReadMsg w.stream).1.2 ≠ none →
        p2p.marks (rw.ReadMsg c w).2.calls = p2p.marks w.calls)
    ∧ (∃ packets traffic : ec.Meter,
        (rw.WriteMsg c msg w).2.calls = w.calls ++ p2p.writeLog packets traffic msg
        ∧ packets.direction = ec.Direction.outbound ∧ packets.quantity = ec.Quantity.packets
        ∧ traffic.direction = ec.Direction.outbound ∧ traffic.quantity = ec.Quantity.traffic
        ∧ packets.kind = traffic.kind
        ∧ packets.name = "ec/" ++ packets.kind.path ++ "/out/packets"
        ∧ traffic.name = "ec/" ++ packets.kind.path ++ "/out/traffic"
        ∧ ec.KindTableAt c rw.version msg.Code packets.kind) := by
  refine ⟨?_, ?_, ?_⟩
  · intro h
    have hs := ec.readMeters_shape c rw.version msg.Code
    exact ⟨_, _, ec.ReadMsg_calls c rw w msg h, hs.1, hs.2.1, hs.2.2.1, hs.2.2.2.1, hs.2.2.2.2,
      ec.inbound_packets_name _ hs.1 hs.2.1,
      hs.2.2.2.2 ▸ ec.inbound_traffic_name _ hs.2.2.1 hs.2.2.2.1,
      ec.readMeters_kind c hd rw.version msg.Code⟩
  · intro h
    rw [ec.ReadMsg_err c rw w h]
    simp [p2p.marks_append, p2p.marks]
  · have hs := ec.writeMeters_shape c rw.version msg.Code
    exact ⟨_, _, ec.WriteMsg_calls c rw w msg, hs.1, hs.2.1, hs.2.2.1, hs.2.2.2.1, hs.2.2.2.2,
      ec.outbound_packets_name _ hs.1 hs.2.1,
      hs.2.2.2.2 ▸ ec.outbound_traffic_name _ hs.2.2.1 hs.2.2.2.1,
      ec.writeMeters_kind c hd rw.version msg.Code⟩

/-- C2, amended, at a concrete input: a `TxMsg` of 7 bytes read at version 63. -/
theorem counts_per_kind_and_direction_witness :
    ec.sampleConsts.Distinct
    ∧ ∃ packets traffic : ec.Meter,
        ((ec.meteredMsgReadWriter.mk p2p.pipe 63).ReadMsg ec.sampleConsts
            ⟨([p2p.Msg.mk 2 7 [] 0], []), []⟩).2.calls
          = [] ++ p2p.readLog packets traffic (p2p.Msg.mk 2 7 [] 0)
        ∧ packets.direction = ec.Direction.inbound ∧ packets.quantity = ec.Quantity.packets
        ∧ traffic.direction = ec.Direction.inbound ∧ traffic.quantity = ec.Quantity.traffic
        ∧ packets.kind = traffic.kind
        ∧ packets.name = "ec/" ++ packets.kind.path ++ "/in/packets"
        ∧ traffic.name = "ec/" ++ packets.kind.path ++ "/in/traffic"
        ∧ ec.KindTableAt ec.sampleConsts 63 (p2p.Msg.mk 2 7 [] 0).Code packets.kind :=
  ⟨by decide,
    (counts_per_kind_and_direction ec.sampleConsts (by decide)
      (ec.meteredMsgReadWriter.mk p2p.pipe 63) ⟨([p2p.Msg.mk 2 7 [] 0], []), []⟩
      (p2p.Msg.mk 2 7 [] 0)).1 (by decide)⟩

/-- C3: the protocol version set by `Init` selects the meters of the version-dependent
message ids.  `Init(version)` stores `version` in the wrapper and leaves the wrapped stream
alone.  With pairwise distinct message codes, once `Init(version)` has been called a written
or successfully read `NodeDataMsg` (resp. `ReceiptsMsg`) is counted under the state (resp.
receipt) meters if and only if `version` is at least `ec63`, and under the misc meters for
every lower version; the wrapper `newMeteredMsgWriter` returns, on which `Init` was never
called, has version 0, so with `0 < ec63` it counts them under misc; and for every other
message code the whole outcome of `ReadMsg` and `WriteMsg` is the same whatever versions
`Init` is called with. -/
theorem version_selects_meters {σ : Type} (c : ec.ProtocolConsts) (hd : c.Distinct)
    (rw : ec.meteredMsgReadWriter σ) (w : p2p.World σ ec.Meter) (msg : p2p.Msg)
    (version : Int) :
    ((rw.Init version).version = version
      ∧ (rw.Init version).MsgReadWriter = rw.MsgReadWriter)
    ∧ (msg.Code = c.NodeDataMsg →
      (((((rw.Init version).WriteMsg c msg w).2.calls = w.calls
            ++ p2p.writeLog ec.Meter.reqStateOutPacketsMeter ec.Meter.reqStateOutTrafficMeter msg
          ↔ version ≥ c.ec63)
        ∧ (version < c.ec63 → ((rw.Init version).WriteMsg c msg w).2.calls = w.calls
            ++ p2p.writeLog ec.Meter.miscOutPacketsMeter ec.Meter.miscOutTrafficMeter msg))
      ∧ ((rw.MsgReadWriter.ReadMsg w.stream).1 = (msg, none) →
        (((rw.Init version).ReadMsg c w).2.calls = w.calls
            ++ p2p.readLog ec.Meter.reqStateInPacketsMeter ec.Meter.reqStateInTrafficMeter msg
          ↔ version ≥ c.ec63)
        ∧ (version < c.ec63 → ((rw.Init version).ReadMsg c w).2.calls = w.calls
            ++ p2p.readLog ec.Meter.miscInPacketsMeter ec.Meter.miscInTrafficMeter msg))))
    ∧ (msg.Code = c.ReceiptsMsg →
      (((((rw.Init version).WriteMsg c msg w).2.calls = w.calls
            ++ p2p.writeLog ec.Meter.reqReceiptOutPacketsMeter ec.Meter.reqReceiptOutTrafficMeter
              msg
          ↔ version ≥ c.ec63)
        ∧ (version < c.ec63 → ((rw.Init version).WriteMsg c msg w).2.calls = w.calls
            ++ p2p.writeLog ec.Meter.miscOutPacketsMeter ec.Meter.miscOutTrafficMeter msg))
      ∧ ((rw.MsgReadWriter.ReadMsg w.stream).1 = (msg, none) →
        (((rw.Init version).ReadMsg c w).2.calls = w.calls
            ++ p2p.readLog ec.Meter.reqReceiptInPacketsMeter ec.Meter.reqReceiptInTrafficMeter msg
          ↔ version ≥ c.ec63)
        ∧ (version < c.ec63 → ((rw.Init version).ReadMsg c w).2.calls = w.calls
            ++ p2p.readLog ec.Meter.miscInPacketsMeter ec.Meter.miscInTrafficMeter msg))))
    ∧ (0 < c.ec63 → (msg.Code = c.NodeDataMsg ∨ msg.Code = c.ReceiptsMsg) →
        ∃ rw0 : ec.meteredMsgReadWriter σ,
          ec.newMeteredMsgWriter true rw.MsgReadWriter = ec.Stream.metered rw0
          ∧ rw0.version = 0
          ∧ (rw0.WriteMsg c msg w).2.calls = w.calls
              ++ p2p.writeLog ec.Meter.miscOutPacketsMeter ec.Meter.miscOutTrafficMeter msg
          ∧ ((rw.MsgReadWriter.ReadMsg w.stream).1 = (msg, none) →
              (rw0.ReadMsg c w).2.calls = w.calls
                ++ p2p.readLog ec.Meter.miscInPacketsMeter ec.Meter.miscInTrafficMeter msg))
    ∧ (msg.Code ≠ c.NodeDataMsg → msg.Code ≠ c.ReceiptsMsg → ∀ other : Int,
        (rw.Init other).WriteMsg c msg w = (rw.Init version).WriteMsg c msg w
        ∧ ((rw.MsgReadWriter.ReadMsg w.stream).1 = (msg, none) →
            (rw.Init other).ReadMsg c w = (rw.Init version).ReadMsg c w)) := by
  have hver : (rw.Init version).version = version := rfl
  have hwc := ec.WriteMsg_calls c (rw.Init version) w msg
  rw [hver] at hwc
  have hrc : (rw.MsgReadWriter.ReadMsg w.stream).1 = (msg, none) →
      ((rw.Init version).ReadMsg c w).2.calls
        = w.calls ++ p2p.readLog (ec.meteredMsgReadWriter.ReadMsg.meters c version msg.Code).1
            (ec.meteredMsgReadWriter.ReadMsg.meters c version msg.Code).2 msg := by
    intro hr
    have := ec.ReadMsg_calls c (rw.Init version) w msg hr
    rw [hver] at this
    exact this
  refine ⟨⟨rfl, rfl⟩, ?_, ?_, ?_, ?_⟩
  · intro hc
    refine ⟨⟨?_, ?_⟩, fun hr => ⟨?_, ?_⟩⟩
    · rw [hwc, hc, ec.writeMeters_nodeData c hd]
      by_cases hv : version ≥ c.ec63 <;> simp [hv, p2p.writeLog]
    · intro hv
      rw [hwc, hc, ec.writeMeters_nodeData c hd, if_neg (by omega)]
    · rw [hrc hr, hc, ec.readMeters_nodeData c hd]
      by_cases hv : version ≥ c.ec63 <;> simp [hv, p2p.readLog]
    · intro hv
      rw [hrc hr, hc, ec.readMeters_nodeData c hd, if_neg (by omega)]
  · intro hc
    refine ⟨⟨?_, ?_⟩, fun hr => ⟨?_, ?_⟩⟩
    · rw [hwc, hc, ec.writeMeters_receipts c hd]
      by_cases hv : version ≥ c.ec63 <;> simp [hv, p2p.writeLog]
    · intro hv
      rw [hwc, hc, ec.writeMeters_receipts c hd, if_neg (by omega)]
    · rw [hrc hr, hc, ec.readMeters_receipts c hd]
      by_cases hv : version ≥ c.ec63 <;> simp [hv, p2p.readLog]
    · intro hv
      rw [hrc hr, hc, ec.readMeters_receipts c hd, if_neg (by omega)]
  · intro h0 hc
    have hlt : ¬ ((0 : Int) ≥ c.ec63) := by omega
    refine ⟨⟨rw.MsgReadWriter, 0⟩, rfl, rfl, ?_, fun hr => ?_⟩
    · rw [ec.WriteMsg_calls]
      rcases hc with hc | hc
      · rw [hc, ec.writeMeters_nodeData c hd, if_neg hlt]
      · rw [hc, ec.writeMeters_receipts c hd, if_neg hlt]
    · rw [ec.ReadMsg_calls c ⟨rw.MsgReadWriter, 0⟩ w msg hr]
      rcases hc with hc | hc
      · rw [hc, ec.readMeters_nodeData c hd, if_neg hlt]
      · rw [hc, ec.readMeters_receipts c hd, if_neg hlt]
  · intro h1 h2 other
    refine ⟨?_, fun hr => ?_⟩
    · rw [ec.WriteMsg_eq, ec.WriteMsg_eq]
      simp only [ec.meteredMsgReadWriter.Init]
      rw [ec.writeMeters_other c other version msg.Code h1 h2]
    · have h0 : (rw.MsgReadWriter.ReadMsg w.stream).1.2 = none := by rw [hr]
      rw [ec.ReadMsg_ok c (rw.Init version) w h0, ec.ReadMsg_ok c (rw.Init other) w h0]
      simp only [ec.meteredMsgReadWriter.Init, hr]
      rw [ec.readMeters_other c other version msg.Code h1 h2]

/-- C3, at a concrete input: after `Init(62)` on the wrapper `newMeteredMsgWriter` returns,
a written `NodeDataMsg` is counted under the misc meters; after `Init(63)` it is counted
under the state meters. -/
theorem version_selects_meters_witness :
    ec.sampleConsts.Distinct
    ∧ (((ec.meteredMsgReadWriter.mk p2p.pipe 0).Init 62).WriteMsg ec.sampleConsts
          (p2p.Msg.mk 14 100 [] 0) ⟨([], []), []⟩).2.calls
        = [] ++ p2p.writeLog ec.Meter.miscOutPacketsMeter ec.Meter.miscOutTrafficMeter
            (p2p.Msg.mk 14 100 [] 0)
    ∧ (((ec.meteredMsgReadWriter.mk p2p.pipe 0).Init 63).WriteMsg ec.sampleConsts
          (p2p.Msg.mk 14 100 [] 0) ⟨([], []), []⟩).2.calls
        = [] ++ p2p.writeLog ec.Meter.reqStateOutPacketsMeter ec.Meter.reqStateOutTrafficMeter
            (p2p.Msg.mk 14 100 [] 0) :=
  ⟨by decide,
    ((version_selects_meters ec.sampleConsts (by decide)
      (ec.meteredMsgReadWriter.mk p2p.pipe 0) ⟨([], []), []⟩
      (p2p.Msg.mk 14 100 [] 0) 62).2.1 rfl).1.2 (by decide),
    ((version_selects_meters ec.sampleConsts (by decide)
      (ec.meteredMsgReadWriter.mk p2p.pipe 0) ⟨([], []), []⟩
      (p2p.Msg.mk 14 100 [] 0) 63).2.1 rfl).1.1.mpr (by decide)⟩

/-! ## The mobile node constructor -/

namespace gec

theorem defaults_fst (p : Nat) (h : Heap) : (NewNode.defaults (some p) h).1 = p := rfl

theorem defaults_cell (p : Nat) (h : Heap) :
    (NewNode.defaults (some p) h).2.cell p =
      { h.cell p with
        MaxPeers := if (h.cell p).MaxPeers = 0 then (h.cell defaultNodeConfig).MaxPeers
          else (h.cell p).MaxPeers,
        BooecrapNodes :=
          if (h.cell p).BooecrapNodes = none
              ∨ (h.cell p).BooecrapNodes.any (fun e => e.Size = 0) then
            (h.cell defaultNodeConfig).BooecrapNodes
          else (h.cell p).BooecrapNodes } := by
  simp only [NewNode.defaults, Heap.store]
  by_cases h4 : defaultNodeConfig = p
  · subst h4
    by_cases h1 : (h.cell defaultNodeConfig).MaxPeers = 0 <;>
    by_cases h2 : (h.cell defaultNodeConfig).BooecrapNodes = none <;>
    by_cases h3 : (h.cell defaultNodeConfig).BooecrapNodes.any (fun e => e.Size = 0) <;>
    simp_all
  · by_cases h1 : (h.cell p).MaxPeers = 0 <;> by_cases h2 : (h.cell p).BooecrapNodes = none <;>
    by_cases h3 : (h.cell p).BooecrapNodes.any (fun e => e.Size = 0) <;>
    simp_all

theorem genesis_cell (env : Env) (p : Nat) (h h2 : Heap) (g : Option core.Genesis)
    (hg : NewNode.genesis env p h = Except.ok (g, h2)) :
    h2 = h ∨ (h2 = h.store p { h.cell p with ecchainNetworkID := 3 }
      ∧ (h.cell p).ecchainNetworkID = 1
      ∧ (h.cell p).ecchainGenesis ≠ ""
      ∧ TestnetGenesis env = some (h.cell p).ecchainGenesis) := by
  unfold NewNode.genesis at hg
  by_cases h1 : (h.cell p).ecchainGenesis = ""
  · simp only [h1, ne_eq, not_true_eq_false, if_false] at hg
    injection hg with hg
    injection hg with _ hg
    left; exact hg.symm
  · simp only [ne_eq, h1, not_false_eq_true, if_true] at hg
    cases hu : env.Unmarshal (h.cell p).ecchainGenesis with
    | error e => rw [hu] at hg; cases hg
    | ok genesis =>
      rw [hu] at hg
      cases ht : TestnetGenesis env with
      | none => rw [ht] at hg; cases hg
      | some testnet =>
        rw [ht] at hg
        dsimp only at hg
        by_cases h3 : (h.cell p).ecchainGenesis = testnet
        · rw [if_pos h3] at hg
          by_cases h4 : (h.cell p).ecchainNetworkID = 1
          · rw [if_pos h4] at hg
            injection hg with hg
            injection hg with _ hg
            right
            exact ⟨hg.symm, h4, h1, by rw [h3]⟩
          · rw [if_neg h4] at hg
            injection hg with hg
            injection hg with _ hg
            left; exact hg.symm
        · rw [if_neg h3] at hg
          injection hg with hg
          injection hg with _ hg
          left; exact hg.symm

theorem NewNode_heap (env : Env) (datadir : String) (p : Nat) (h : Heap) :
    (NewNode env datadir (some p) h).2 = (NewNode.defaults (some p) h).2
    ∨ ∃ g, NewNode.genesis env p (NewNode.defaults (some p) h).2
        = Except.ok (g, (NewNode env datadir (some p) h).2) := by
  unfold NewNode
  simp only [defaults_fst]
  split
  · left; rfl
  · split
    · left; rfl
    · split
      · left; rfl
      · rename_i g h2 hg
        right
        exact ⟨g, hg⟩

theorem Register_cases (env : Env) (n : node.Node) (k : node.ServiceConstructor) :
    (∃ e, Register env n k = (some e, n))
    ∨ Register env n k = (none, { n with serviceFuncs := n.serviceFuncs ++ [k] }) := by
  unfold Register
  cases env.registerErr n k with
  | some e => left; exact ⟨e, rfl⟩
  | none => right; rfl

theorem services_les (env : Env) (p : Nat) (g : Option core.Genesis) (raw : node.Node)
    (h : Heap) (n : Node) (hr : NewNode.services env p g raw h = Result.ret (some n) none)
    (he : (h.cell p).ecchainEnabled = true) :
    node.ServiceConstructor.les (NewNode.ecConf env g (h.cell p)) ∈ n.node.serviceFuncs := by
  unfold NewNode.services at hr
  simp only [he, if_true] at hr
  rcases Register_cases env raw (node.ServiceConstructor.les (NewNode.ecConf env g (h.cell p)))
    with ⟨e, h1⟩ | h1
  · rw [h1] at hr
    simp at hr
  · rw [h1] at hr
    dsimp only at hr
    by_cases hn : (h.cell p).ecchainNeecats = ""
    · simp only [hn, ne_eq, not_true_eq_false, if_false] at hr
      by_cases hw : (h.cell p).WhisperEnabled = true
      · simp only [hw, if_true] at hr
        rcases Register_cases env
          { raw with serviceFuncs := raw.serviceFuncs
              ++ [node.ServiceConstructor.les (NewNode.ecConf env g (h.cell p))] }
          node.ServiceConstructor.whisper with ⟨e, h2⟩ | h2
        · rw [h2] at hr
          simp at hr
        · rw [h2] at hr
          simp at hr
          rw [← hr]
          simp
      · simp only [hw] at hr
        simp at hr
        rw [← hr]
        simp
    · simp only [hn, ne_eq, not_false_eq_true, if_true] at hr
      rcases Register_cases env
          { raw with serviceFuncs := raw.serviceFuncs
              ++ [node.ServiceConstructor.les (NewNode.ecConf env g (h.cell p))] }
          (node.ServiceConstructor.ecstats p) with ⟨e, h2⟩ | h2
      · rw [h2] at hr
        simp at hr
      · rw [h2] at hr
        dsimp only at hr
        by_cases hw : (h.cell p).WhisperEnabled = true
        · simp only [hw, if_true] at hr
          rcases Register_cases env
            { raw with serviceFuncs := (raw.serviceFuncs
                ++ [node.ServiceConstructor.les (NewNode.ecConf env g (h.cell p))])
                ++ [node.ServiceConstructor.ecstats p] }
            node.ServiceConstructor.whisper with ⟨e, h3⟩ | h3
          · rw [h3] at hr
            simp at hr
          · rw [h3] at hr
            simp at hr
            rw [← hr]
            simp
        · simp only [hw] at hr
          simp at hr
          rw [← hr]
          simp

theorem genesis_cell_fields (env : Env) (p : Nat) (h h2 : Heap) (g : Option core.Genesis)
    (hg : NewNode.genesis env p h = Except.ok (g, h2)) :
    h2.cell p = { h.cell p with ecchainNetworkID := (h2.cell p).ecchainNetworkID } := by
  rcases genesis_cell env p h h2 g hg with h1 | ⟨h1, _⟩
  · rw [h1]
  · rw [h1]
    simp [Heap.store]

theorem NewNode_cell (env : Env) (datadir : String) (p : Nat) (h : Heap) :
    (NewNode env datadir (some p) h).2.cell p =
      { (NewNode.defaults (some p) h).2.cell p with
        ecchainNetworkID := ((NewNode env datadir (some p) h).2.cell p).ecchainNetworkID } := by
  rcases NewNode_heap env datadir p h with h1 | ⟨g, hg⟩
  · rw [h1]
  · exact genesis_cell_fields env p _ _ g hg

theorem genesis_error (env : Env) (p : Nat) (h : Heap) (r : Result)
    (hg : NewNode.genesis env p h = Except.error r) :
    r = Result.panic ∨ ∃ e, r = Result.ret none (some e) := by
  unfold NewNode.genesis at hg
  by_cases h1 : (h.cell p).ecchainGenesis = ""
  · simp only [h1, ne_eq, not_true_eq_false, if_false] at hg
    cases hg
  · simp only [ne_eq, h1, not_false_eq_true, if_true] at hg
    cases hu : env.Unmarshal (h.cell p).ecchainGenesis with
    | error e =>
      rw [hu] at hg
      injection hg with hg
      right
      exact ⟨_, hg.symm⟩
    | ok genesis =>
      rw [hu] at hg
      cases ht : TestnetGenesis env with
      | none =>
        rw [ht] at hg
        injection hg with hg
        left
        exact hg.symm
      | some testnet =>
        rw [ht] at hg
        dsimp only at hg
        by_cases h3 : (h.cell p).ecchainGenesis = testnet
        · rw [if_pos h3] at hg
          cases hg
        · rw [if_neg h3] at hg
          cases hg

theorem NewNode_ret (env : Env) (datadir : String) (p : Nat) (h : Heap) (n : Node)
    (hr : (NewNode env datadir (some p) h).1 = Result.ret (some n) none) :
    ∃ g raw h2, NewNode.genesis env p (NewNode.defaults (some p) h).2 = Except.ok (g, h2)
      ∧ NewNode.services env p g raw h2 = Result.ret (some n) none := by
  unfold NewNode at hr
  simp only [defaults_fst] at hr
  cases hb : ((NewNode.defaults (some p) h).2.cell p).BooecrapNodes with
  | none =>
    rw [hb] at hr
    cases hr
  | some b =>
    rw [hb] at hr
    dsimp only at hr
    cases hn : env.New (NewNode.nodeConf env datadir b.nodes
        ((NewNode.defaults (some p) h).2.cell p)) with
    | error e =>
      rw [hn] at hr
      cases hr
    | ok raw =>
      rw [hn] at hr
      dsimp only at hr
      cases hgen : NewNode.genesis env p (NewNode.defaults (some p) h).2 with
      | error r =>
        rw [hgen] at hr
        dsimp only at hr
        rcases genesis_error env p _ r hgen with h1 | ⟨e, h1⟩
        · rw [h1] at hr
          cases hr
        · rw [h1] at hr
          cases hr
      | ok gh =>
        rw [hgen] at hr
        obtain ⟨g, h2⟩ := gh
        exact ⟨g, raw, h2, rfl, hr⟩

end gec

/-- C7 fails on the code: a configuration whose `MaxPeers` is 0 does not reach the P2P
configuration as 0.  `NewNode` overwrites it with `defaultNodeConfig.MaxPeers`, so the
networking stack is configured with `MaxPeers` 25, and the caller's struct holds 25 too. -/
theorem MaxPeers_zero_replaced_by_default :
    ((gec.sampleHeap { gec.defaultNodeConfigLit gec.sampleEnv with MaxPeers := 0 }).cell 1).MaxPeers
        = 0
    ∧ (∃ n : gec.Node,
        (gec.NewNode gec.sampleEnv "/data" (some 1)
          (gec.sampleHeap { gec.defaultNodeConfigLit gec.sampleEnv with MaxPeers := 0 })).1
          = gec.Result.ret (some n) none
        ∧ n.node.config.P2P.MaxPeers = 25)
    ∧ ((gec.NewNode gec.sampleEnv "/data" (some 1)
          (gec.sampleHeap { gec.defaultNodeConfigLit gec.sampleEnv with MaxPeers := 0 })).2.cell
            1).MaxPeers = 25 := by
  refine ⟨by decide, ⟨_, rfl, ?_⟩, by decide⟩
  decide

/-- C8, as stated, fails: with the ecchain protocol enabled and `ecchainDatabaseCache` 0,
the service configuration `NewNode` registers carries `DatabaseCache` 0, which is below 16. -/
theorem DatabaseCache_below_16_handed_on :
    ((gec.sampleHeap
        { gec.defaultNodeConfigLit gec.sampleEnv with ecchainDatabaseCache := 0 }).cell
          1).ecchainEnabled = true
    ∧ ∃ (n : gec.Node) (ecConf : ec.Config),
        (gec.NewNode gec.sampleEnv "/data" (some 1)
          (gec.sampleHeap
            { gec.defaultNodeConfigLit gec.sampleEnv with ecchainDatabaseCache := 0 })).1
          = gec.Result.ret (some n) none
        ∧ n.node.serviceFuncs = [node.ServiceConstructor.les ecConf]
        ∧ ecConf.DatabaseCache = 0 ∧ ¬ (16 ≤ ecConf.DatabaseCache) := by
  refine ⟨by decide, _, _, rfl, rfl, ?_, ?_⟩
  · decide
  · decide

/-- C8, amended: `NewNode` hands the database cache on unchanged.  Whenever `NewNode`
returns a node for a configuration with the ecchain protocol enabled, the service
configuration registered on it carries exactly the caller's `ecchainDatabaseCache`,
whatever its value; `NewNode` applies no minimum of its own. -/
theorem DatabaseCache_handed_unchanged (env : gec.Env) (datadir : String) (p : Nat) (h : gec.Heap)
    (n : gec.Node) (hr : (gec.NewNode env datadir (some p) h).1 = gec.Result.ret (some n) none)
    (he : (h.cell p).ecchainEnabled = true) :
    ∃ ecConf : ec.Config, node.ServiceConstructor.les ecConf ∈ n.node.serviceFuncs
      ∧ ecConf.DatabaseCache = (h.cell p).ecchainDatabaseCache := by
  obtain ⟨g, raw, h2, hgen, hs⟩ := gec.NewNode_ret env datadir p h n hr
  have hc := gec.genesis_cell_fields env p _ h2 g hgen
  have hd := gec.defaults_cell p h
  have he2 : (h2.cell p).ecchainEnabled = true := by
    rw [hc, hd]
    exact he
  refine ⟨_, gec.services_les env p g raw h2 n hs he2, ?_⟩
  simp only [gec.NewNode.ecConf]
  rw [hc, hd]

/-- C8, amended, at a concrete input: a cache of 512 MB. -/
theorem DatabaseCache_handed_unchanged_witness :
    ((gec.sampleHeap
        { gec.defaultNodeConfigLit gec.sampleEnv with ecchainDatabaseCache := 512 }).cell
          1).ecchainEnabled = true
    ∧ ∃ n : gec.Node,
      (gec.NewNode gec.sampleEnv "/data" (some 1)
        (gec.sampleHeap
          { gec.defaultNodeConfigLit gec.sampleEnv with ecchainDatabaseCache := 512 })).1
        = gec.Result.ret (some n) none
      ∧ ∃ ecConf : ec.Config,
        node.ServiceConstructor.les ecConf ∈ n.node.serviceFuncs
        ∧ ecConf.DatabaseCache
          = ((gec.sampleHeap
              { gec.defaultNodeConfigLit gec.sampleEnv with ecchainDatabaseCache := 512 }).cell
                1).ecchainDatabaseCache :=
  ⟨by decide, _, rfl,
    DatabaseCache_handed_unchanged gec.sampleEnv "/data" 1
      (gec.sampleHeap
        { gec.defaultNodeConfigLit gec.sampleEnv with ecchainDatabaseCache := 512 })
      _ rfl (by decide)⟩

/-- C10: `NewNodeConfig` creates a new option set initialised to the default values.  As
long as `defaultNodeConfig` holds what it was initialised with, every call returns a
configuration with `MaxPeers` 25, `ecchainEnabled` true, `ecchainNetworkID` 1,
`ecchainDatabaseCache` 16, empty `ecchainGenesis`, empty `ecchainNeecats` and `WhisperEnabled`
false; it lives at a fresh address, so no existing struct changes, and whatever is then
written to it (`c`) changes neither `defaultNodeConfig` nor what a later call returns. -/
theorem NewNodeConfig_fresh_defaults (env : gec.Env) (h : gec.Heap) (c : gec.NodeConfig)
    (hdef : h.cell gec.defaultNodeConfig = gec.defaultNodeConfigLit env) :
    (((gec.NewNodeConfig h).2.cell (gec.NewNodeConfig h).1).MaxPeers = 25
      ∧ ((gec.NewNodeConfig h).2.cell (gec.NewNodeConfig h).1).ecchainEnabled = true
      ∧ ((gec.NewNodeConfig h).2.cell (gec.NewNodeConfig h).1).ecchainNetworkID = 1
      ∧ ((gec.NewNodeConfig h).2.cell (gec.NewNodeConfig h).1).ecchainDatabaseCache = 16
      ∧ ((gec.NewNodeConfig h).2.cell (gec.NewNodeConfig h).1).ecchainGenesis = ""
      ∧ ((gec.NewNodeConfig h).2.cell (gec.NewNodeConfig h).1).ecchainNeecats = ""
      ∧ ((gec.NewNodeConfig h).2.cell (gec.NewNodeConfig h).1).WhisperEnabled = false)
    ∧ (gec.NewNodeConfig h).1 ≠ gec.defaultNodeConfig
    ∧ (∀ q, q ≠ (gec.NewNodeConfig h).1 → (gec.NewNodeConfig h).2.cell q = h.cell q)
    ∧ (((gec.NewNodeConfig h).2.store (gec.NewNodeConfig h).1 c).cell gec.defaultNodeConfig
        = gec.defaultNodeConfigLit env)
    ∧ (gec.NewNodeConfig ((gec.NewNodeConfig h).2.store (gec.NewNodeConfig h).1 c)).1
        ≠ (gec.NewNodeConfig h).1
    ∧ ((gec.NewNodeConfig ((gec.NewNodeConfig h).2.store (gec.NewNodeConfig h).1 c)).2.cell
        (gec.NewNodeConfig ((gec.NewNodeConfig h).2.store (gec.NewNodeConfig h).1 c)).1
        = gec.defaultNodeConfigLit env) := by
  simp [gec.NewNodeConfig, gec.Heap.store, gec.defaultNodeConfig] at hdef ⊢
  simp [hdef, gec.defaultNodeConfigLit]
  intro q h1 h2
  exact absurd h2 h1

/-- C10, at a concrete input: the memory after package initialisation. -/
theorem NewNodeConfig_fresh_defaults_witness :
    (gec.Heap.init gec.sampleEnv).cell gec.defaultNodeConfig
        = gec.defaultNodeConfigLit gec.sampleEnv
    ∧ ((gec.NewNodeConfig (gec.Heap.init gec.sampleEnv)).2.cell
        (gec.NewNodeConfig (gec.Heap.init gec.sampleEnv)).1).MaxPeers = 25
    ∧ (gec.NewNodeConfig (gec.sampleHeap
          { gec.defaultNodeConfigLit gec.sampleEnv with MaxPeers := 3 })).2.cell
        (gec.NewNodeConfig (gec.sampleHeap
          { gec.defaultNodeConfigLit gec.sampleEnv with MaxPeers := 3 })).1
        = gec.defaultNodeConfigLit gec.sampleEnv :=
  ⟨rfl,
    (NewNodeConfig_fresh_defaults gec.sampleEnv (gec.Heap.init gec.sampleEnv)
      { gec.defaultNodeConfigLit gec.sampleEnv with MaxPeers := 3 } rfl).1.1,
    (NewNodeConfig_fresh_defaults gec.sampleEnv (gec.Heap.init gec.sampleEnv)
      { gec.defaultNodeConfigLit gec.sampleEnv with MaxPeers := 3 } rfl).2.2.2.2.2⟩

/-! ## The genesis block of `NewNode` -/

namespace gec

theorem NewNode_of_stack (env : Env) (datadir : String) (p : Nat) (h : Heap) (raw : node.Node)
    (hs : NewNode.StackCreated env datadir p h raw) :
    NewNode env datadir (some p) h =
      match NewNode.genesis env p (NewNode.defaults (some p) h).2 with
      | Except.error r => (r, (NewNode.defaults (some p) h).2)
      | Except.ok (genesis, h2) => (NewNode.services env p genesis raw h2, h2) := by
  obtain ⟨b, hb, hn⟩ := hs
  unfold NewNode
  simp only [defaults_fst]
  rw [hb]
  dsimp only
  rw [hn]

theorem genesis_empty (env : Env) (p : Nat) (h : Heap)
    (hg : (h.cell p).ecchainGenesis = "") :
    NewNode.genesis env p h = Except.ok (none, h) := by
  unfold NewNode.genesis
  simp [hg]

theorem genesis_malformed (env : Env) (p : Nat) (h : Heap) (e : String)
    (hg : (h.cell p).ecchainGenesis ≠ "")
    (hu : env.Unmarshal (h.cell p).ecchainGenesis = Except.error e) :
    NewNode.genesis env p h
      = Except.error (Result.ret none (some ("invalid genesis spec: " ++ e))) := by
  unfold NewNode.genesis
  rw [if_pos hg, hu]

theorem genesis_testnet (env : Env) (p : Nat) (h : Heap) (g : core.Genesis) (s : String)
    (hg : (h.cell p).ecchainGenesis ≠ "")
    (hu : env.Unmarshal (h.cell p).ecchainGenesis = Except.ok g)
    (ht : TestnetGenesis env = some s) (hs : (h.cell p).ecchainGenesis = s) :
    NewNode.genesis env p h
      = Except.ok (some { g with Config := some env.TestnetChainConfig },
          if (h.cell p).ecchainNetworkID = 1 then
            h.store p { h.cell p with ecchainNetworkID := 3 }
          else h) := by
  unfold NewNode.genesis
  rw [if_pos hg, hu, ht]
  dsimp only
  rw [if_pos hs]

theorem genesis_other (env : Env) (p : Nat) (h : Heap) (g : core.Genesis) (s : String)
    (hg : (h.cell p).ecchainGenesis ≠ "")
    (hu : env.Unmarshal (h.cell p).ecchainGenesis = Except.ok g)
    (ht : TestnetGenesis env = some s) (hs : (h.cell p).ecchainGenesis ≠ s) :
    NewNode.genesis env p h = Except.ok (some g, h) := by
  unfold NewNode.genesis
  rw [if_pos hg, hu, ht]
  dsimp only
  rw [if_neg hs]

theorem defaults_genesis (p : Nat) (h : Heap) :
    ((NewNode.defaults (some p) h).2.cell p).ecchainGenesis = (h.cell p).ecchainGenesis := by
  rw [defaults_cell]

theorem defaults_NetworkID (p : Nat) (h : Heap) :
    ((NewNode.defaults (some p) h).2.cell p).ecchainNetworkID = (h.cell p).ecchainNetworkID := by
  rw [defaults_cell]

theorem NewNode_no_parse (env : Env) (datadir : String) (p : Nat) (h : Heap)
    (u : String → Except String core.Genesis) (m : core.Genesis → Except String String)
    (hg : (h.cell p).ecchainGenesis = "") :
    NewNode { env with Unmarshal := u, Marshal := m } datadir (some p) h
      = NewNode env datadir (some p) h := by
  have h1 := genesis_empty env p (NewNode.defaults (some p) h).2
    (by rw [defaults_genesis]; exact hg)
  have h2 := genesis_empty { env with Unmarshal := u, Marshal := m } p
    (NewNode.defaults (some p) h).2 (by rw [defaults_genesis]; exact hg)
  unfold NewNode
  simp only [defaults_fst, h1, h2]
  rfl

end gec

/-- C11: an empty genesis is equivalent to using mainnet.  `MainnetGenesis()` returns the
empty string, and for every configuration whose `ecchainGenesis` is that string `NewNode`
parses nothing (its outcome is the same whatever `json.Unmarshal` and `json.Marshal` would
do), leaves `ecchainNetworkID` as given, goes on to register the services with a nil
genesis, and the service configuration on a returned node carries the nil genesis and the
given network id. -/
theorem empty_genesis_is_mainnet (env : gec.Env) (datadir : String) (p : Nat) (h : gec.Heap)
    (hg : (h.cell p).ecchainGenesis = gec.MainnetGenesis) :
    gec.MainnetGenesis = ""
    ∧ (∀ (u : String → Except String core.Genesis) (m : core.Genesis → Except String String),
        gec.NewNode { env with Unmarshal := u, Marshal := m } datadir (some p) h
          = gec.NewNode env datadir (some p) h)
    ∧ ((gec.NewNode env datadir (some p) h).2.cell p).ecchainNetworkID
        = (h.cell p).ecchainNetworkID
    ∧ (∀ raw : node.Node, gec.NewNode.StackCreated env datadir p h raw →
        gec.NewNode env datadir (some p) h
          = (gec.NewNode.services env p none raw (gec.NewNode.defaults (some p) h).2,
              (gec.NewNode.defaults (some p) h).2))
    ∧ (∀ n : gec.Node, (gec.NewNode env datadir (some p) h).1 = gec.Result.ret (some n) none →
        (h.cell p).ecchainEnabled = true →
        ∃ ecConf : ec.Config, node.ServiceConstructor.les ecConf ∈ n.node.serviceFuncs
          ∧ ecConf.Genesis = none
          ∧ ecConf.NetworkId = uint64 (h.cell p).ecchainNetworkID) := by
  have hg0 : (h.cell p).ecchainGenesis = "" := hg
  have hg1 : ((gec.NewNode.defaults (some p) h).2.cell p).ecchainGenesis = "" := by
    rw [gec.defaults_genesis]; exact hg0
  have hgen := gec.genesis_empty env p (gec.NewNode.defaults (some p) h).2 hg1
  refine ⟨rfl, fun u m => gec.NewNode_no_parse env datadir p h u m hg0, ?_, ?_, ?_⟩
  · rcases gec.NewNode_heap env datadir p h with h1 | ⟨g, h1⟩
    · rw [h1, gec.defaults_NetworkID]
    · rw [hgen] at h1
      injection h1 with h1
      injection h1 with _ h1
      rw [← h1, gec.defaults_NetworkID]
  · intro raw hs
    rw [gec.NewNode_of_stack env datadir p h raw hs, hgen]
  · intro n hr he
    obtain ⟨g, raw, h2, hgen2, hsv⟩ := gec.NewNode_ret env datadir p h n hr
    rw [hgen] at hgen2
    injection hgen2 with hgen2
    injection hgen2 with hg2 hh2
    subst hg2
    subst hh2
    have he2 : ((gec.NewNode.defaults (some p) h).2.cell p).ecchainEnabled = true := by
      rw [gec.defaults_cell]; exact he
    refine ⟨_, gec.services_les env p none raw _ n hsv he2, rfl, ?_⟩
    simp only [gec.NewNode.ecConf]
    rw [gec.defaults_NetworkID]

/-- C11, at a concrete input: the default configuration, whose genesis is empty. -/
theorem empty_genesis_is_mainnet_witness :
    ((gec.sampleHeap (gec.defaultNodeConfigLit gec.sampleEnv)).cell 1).ecchainGenesis
        = gec.MainnetGenesis
    ∧ ((gec.NewNode gec.sampleEnv "/data" (some 1)
        (gec.sampleHeap (gec.defaultNodeConfigLit gec.sampleEnv))).2.cell 1).ecchainNetworkID
        = 1 :=
  ⟨rfl, (empty_genesis_is_mainnet gec.sampleEnv "/data" 1
    (gec.sampleHeap (gec.defaultNodeConfigLit gec.sampleEnv)) rfl).2.2.1⟩

/-! ## The meters of the downloader -/

/-- C14, as stated, fails: no metric of the downloader is registered under the name
`ec/downloader/states/timeout`; the data kind states has an in meter and a drop meter only. -/
theorem no_states_timeout_meter :
    ¬ ∃ m : downloader.Metric, m.name = "ec/downloader/states/timeout" := by
  rintro ⟨m, hm⟩
  cases m <;> exact absurd hm (by decide)

/-- C14, amended: the downloader defines a drop meter for each of the data kinds headers,
bodies, receipts and states, registered as `ec/downloader/<kind>/drop`, and a timeout meter
for each of the data kinds headers, bodies and receipts, registered as
`ec/downloader/<kind>/timeout`; all seven are meters, not timers. -/
theorem drop_and_timeout_meters :
    (downloader.Metric.headerDropMeter.name = "ec/downloader/" ++ "headers" ++ "/drop"
      ∧ downloader.Metric.bodyDropMeter.name = "ec/downloader/" ++ "bodies" ++ "/drop"
      ∧ downloader.Metric.receiptDropMeter.name = "ec/downloader/" ++ "receipts" ++ "/drop"
      ∧ downloader.Metric.stateDropMeter.name = "ec/downloader/" ++ "states" ++ "/drop")
    ∧ (downloader.Metric.headerTimeoutMeter.name = "ec/downloader/" ++ "headers" ++ "/timeout"
      ∧ downloader.Metric.bodyTimeoutMeter.name = "ec/downloader/" ++ "bodies" ++ "/timeout"
      ∧ downloader.Metric.receiptTimeoutMeter.name
          = "ec/downloader/" ++ "receipts" ++ "/timeout")
    ∧ (downloader.Metric.headerDropMeter.type = downloader.MetricType.meter
      ∧ downloader.Metric.bodyDropMeter.type = downloader.MetricType.meter
      ∧ downloader.Metric.receiptDropMeter.type = downloader.MetricType.meter
      ∧ downloader.Metric.stateDropMeter.type = downloader.MetricType.meter
      ∧ downloader.Metric.headerTimeoutMeter.type = downloader.MetricType.meter
      ∧ downloader.Metric.bodyTimeoutMeter.type = downloader.MetricType.meter
      ∧ downloader.Metric.receiptTimeoutMeter.type = downloader.MetricType.meter) := by
  refine ⟨by decide, by decide, by decide⟩

/-! ## The announcement intake of the fetcher -/

namespace fetcher

theorem announceAll_append (cfg : Config) (pre : List Announcement) (a : Announcement)
    (f : Fetcher) :
    announceAll cfg (pre ++ [a]) f = announce cfg a (announceAll cfg pre f) := by
  simp [announceAll, List.foldl_append]

theorem announce_height (cfg : Config) (a : Announcement) (f : Fetcher) :
    (announce cfg a f).height = f.height := by
  simp only [announce]
  split_ifs <;> rfl

theorem announce_window (cfg : Config) (a : Announcement) (f : Fetcher)
    (hw : a.time / cfg.window = f.window) : (announce cfg a f).window = f.window := by
  simp only [announce]
  split_ifs <;> exact hw

theorem announce_counts (cfg : Config) (a : Announcement) (f : Fetcher) (q : Nat)
    (hw : a.time / cfg.window = f.window) :
    ((announce cfg a f).counts q = f.counts q + (if a.origin = q then 1 else 0)
      ∧ (a.origin = q → f.counts q < cfg.rateLimit))
    ∨ (a.origin = q ∧ cfg.rateLimit ≤ f.counts q ∧ (announce cfg a f).counts q = f.counts q) := by
  unfold announce
  simp only [hw, if_true]
  by_cases h1 : cfg.rateLimit ≤ f.counts a.origin
  · rw [if_pos h1]
    by_cases h2 : a.origin = q
    · right
      subst h2
      exact ⟨rfl, h1, rfl⟩
    · left
      simp [h2]
  · rw [if_neg h1]
    left
    by_cases h2 : a.origin = q
    · subst h2
      split_ifs <;> simp <;> omega
    · have h3 : ¬ q = a.origin := fun h => h2 h.symm
      split_ifs <;> simp [h2, h3]

theorem announce_excess (cfg : Config) (a : Announcement) (f : Fetcher)
    (hw : a.time / cfg.window = f.window) (h : cfg.rateLimit ≤ f.counts a.origin) :
    (announce cfg a f).queue = f.queue ∧ (announce cfg a f).dos = f.dos + 1 := by
  unfold announce
  simp only [hw, if_true]
  rw [if_pos h]
  simp [Fetcher.dos, List.count_append]

theorem announce_within (cfg : Config) (a : Announcement) (f : Fetcher)
    (hw : a.time / cfg.window = f.window) (h : f.counts a.origin < cfg.rateLimit) :
    (announce cfg a f).dos = f.dos
    ∧ (f.alreadySeen cfg a = false → a.height ≤ f.height + cfg.maxFuture →
        (announce cfg a f).queue = f.queue ++ [a]) := by
  unfold announce
  simp only [hw, if_true]
  rw [if_neg (by omega)]
  constructor
  · split_ifs <;> simp [Fetcher.dos, List.count_append]
  · intro h1 h2
    rw [if_neg (by simp [h1]; omega)]

theorem announceAll_counts (cfg : Config) :
    ∀ (pre : List Announcement) (f : Fetcher) (q : Nat),
      (∀ b ∈ pre, b.time / cfg.window = f.window) →
      (announceAll cfg pre f).window = f.window
      ∧ (announceAll cfg pre f).height = f.height
      ∧ ((f.counts q + sentBy q pre < cfg.rateLimit
            ∧ (announceAll cfg pre f).counts q = f.counts q + sentBy q pre)
          ∨ (cfg.rateLimit ≤ f.counts q + sentBy q pre
            ∧ cfg.rateLimit ≤ (announceAll cfg pre f).counts q)) := by
  intro pre
  induction pre with
  | nil =>
    intro f q _
    refine ⟨rfl, rfl, ?_⟩
    have hs : sentBy q [] = 0 := rfl
    have hg : announceAll cfg [] f = f := rfl
    rw [hs, hg]
    by_cases h : f.counts q < cfg.rateLimit
    · exact Or.inl ⟨by omega, by omega⟩
    · exact Or.inr ⟨by omega, by omega⟩
  | cons b rest ih =>
    intro f q hw
    have hb : b.time / cfg.window = f.window := hw b (List.mem_cons_self _ _)
    have hwin := announce_window cfg b f hb
    have hrest : ∀ c ∈ rest, c.time / cfg.window = (announce cfg b f).window := by
      intro c hc
      rw [hwin]
      exact hw c (List.mem_cons_of_mem _ hc)
    obtain ⟨h1, h2, h3⟩ := ih (announce cfg b f) q hrest
    have hall : announceAll cfg (b :: rest) f = announceAll cfg rest (announce cfg b f) := rfl
    have hsent : sentBy q (b :: rest) = sentBy q rest + (if b.origin = q then 1 else 0) := by
      simp only [sentBy, List.countP_cons]
      by_cases hq : b.origin = q <;> simp [hq]
    rw [hall, hsent]
    refine ⟨by rw [h1, hwin], by rw [h2, announce_height], ?_⟩
    rcases announce_counts cfg b f q hb with ⟨hc, _⟩ | ⟨hq, hlim, hc⟩
    · rw [hc] at h3
      rcases h3 with ⟨h4, h5⟩ | ⟨h4, h5⟩
      · exact Or.inl ⟨by omega, by rw [h5]; omega⟩
      · exact Or.inr ⟨by omega, h5⟩
    · rw [hc] at h3
      rcases h3 with ⟨h4, _⟩ | ⟨_, h5⟩
      · omega
      · exact Or.inr ⟨by omega, h5⟩

end fetcher

/-- C15: per-peer announcement flood protection.  Within one rate window, an announcement
`a` that arrives when its peer has already used up its rate limit (what the peer had spent
before plus what it sent in `pre`) is excess: it is dropped, the queue stays as it is, and
the announce DOS counter goes up by exactly one.  An announcement of a peer that is within
its own budget never touches the DOS counter and is enqueued, however many announcements
other peers have sent, unless its hash was already seen or its height is past the future
margin. -/
theorem announce_flood_protection (cfg : fetcher.Config) (f : fetcher.Fetcher)
    (pre : List fetcher.Announcement) (a : fetcher.Announcement)
    (hw : ∀ b ∈ pre ++ [a], b.time / cfg.window = f.window) :
    (cfg.rateLimit ≤ f.counts a.origin + fetcher.sentBy a.origin pre →
      (fetcher.announceAll cfg (pre ++ [a]) f).queue = (fetcher.announceAll cfg pre f).queue
      ∧ (fetcher.announceAll cfg (pre ++ [a]) f).dos
          = (fetcher.announceAll cfg pre f).dos + 1)
    ∧ (f.counts a.origin + fetcher.sentBy a.origin pre < cfg.rateLimit →
      (fetcher.announceAll cfg (pre ++ [a]) f).dos = (fetcher.announceAll cfg pre f).dos
      ∧ ((fetcher.announceAll cfg pre f).alreadySeen cfg a = false →
          a.height ≤ f.height + cfg.maxFuture →
          (fetcher.announceAll cfg (pre ++ [a]) f).queue
            = (fetcher.announceAll cfg pre f).queue ++ [a])) := by
  have hpre : ∀ b ∈ pre, b.time / cfg.window = f.window :=
    fun b hb => hw b (List.mem_append.mpr (Or.inl hb))
  have ha : a.time / cfg.window = f.window :=
    hw a (List.mem_append.mpr (Or.inr (List.mem_singleton.mpr rfl)))
  obtain ⟨h1, h2, h3⟩ := fetcher.announceAll_counts cfg pre f a.origin hpre
  rw [fetcher.announceAll_append]
  constructor
  · intro hex
    have hlim : cfg.rateLimit ≤ (fetcher.announceAll cfg pre f).counts a.origin := by
      rcases h3 with ⟨h4, _⟩ | ⟨_, h5⟩
      · omega
      · exact h5
    exact fetcher.announce_excess cfg a _ (by rw [h1]; exact ha) hlim
  · intro hin
    have hlim : (fetcher.announceAll cfg pre f).counts a.origin < cfg.rateLimit := by
      rcases h3 with ⟨h4, h5⟩ | ⟨h4, _⟩
      · rw [h5]; exact h4
      · omega
    have h6 := fetcher.announce_within cfg a _ (by rw [h1]; exact ha) hlim
    rw [h2] at h6
    exact h6

/-- C15, at a concrete input: with a rate limit of 2, the third announcement of peer 1 is
dropped and counted, and the following announcement of peer 2 is enqueued. -/
theorem announce_flood_protection_witness :
    (fetcher.announceAll ⟨2, 10, 100, 50⟩
        [⟨11, 5, 1, 0⟩, ⟨12, 6, 1, 1⟩, ⟨13, 7, 1, 2⟩] (fetcher.Fetcher.fresh 4)).queue
      = (fetcher.announceAll ⟨2, 10, 100, 50⟩
        [⟨11, 5, 1, 0⟩, ⟨12, 6, 1, 1⟩] (fetcher.Fetcher.fresh 4)).queue
    ∧ (fetcher.announceAll ⟨2, 10, 100, 50⟩
        [⟨11, 5, 1, 0⟩, ⟨12, 6, 1, 1⟩, ⟨13, 7, 1, 2⟩] (fetcher.Fetcher.fresh 4)).dos
      = (fetcher.announceAll ⟨2, 10, 100, 50⟩
        [⟨11, 5, 1, 0⟩, ⟨12, 6, 1, 1⟩] (fetcher.Fetcher.fresh 4)).dos + 1
    ∧ (fetcher.announceAll ⟨2, 10, 100, 50⟩
        [⟨11, 5, 1, 0⟩, ⟨12, 6, 1, 1⟩, ⟨13, 7, 1, 2⟩, ⟨14, 8, 2, 3⟩]
        (fetcher.Fetcher.fresh 4)).queue
      = (fetcher.announceAll ⟨2, 10, 100, 50⟩
        [⟨11, 5, 1, 0⟩, ⟨12, 6, 1, 1⟩, ⟨13, 7, 1, 2⟩] (fetcher.Fetcher.fresh 4)).queue
        ++ [⟨14, 8, 2, 3⟩] :=
  ⟨((announce_flood_protection ⟨2, 10, 100, 50⟩ (fetcher.Fetcher.fresh 4)
      [⟨11, 5, 1, 0⟩, ⟨12, 6, 1, 1⟩] ⟨13, 7, 1, 2⟩ (by decide)).1 (by decide)).1,
    ((announce_flood_protection ⟨2, 10, 100, 50⟩ (fetcher.Fetcher.fresh 4)
      [⟨11, 5, 1, 0⟩, ⟨12, 6, 1, 1⟩] ⟨13, 7, 1, 2⟩ (by decide)).1 (by decide)).2,
    ((announce_flood_protection ⟨2, 10, 100, 50⟩ (fetcher.Fetcher.fresh 4)
      [⟨11, 5, 1, 0⟩, ⟨12, 6, 1, 1⟩, ⟨13, 7, 1, 2⟩] ⟨14, 8, 2, 3⟩ (by decide)).2
        (by decide)).2 (by decide) (by decide)⟩

/-! ## The header merge of the downloader -/

namespace downloader

theorem flush_inv (D : Nat → Prop) (lo : Nat) :
    ∀ (fuel : Nat) (m : HeaderMerger), MergeInv D lo m → MergeInv D lo (m.flush fuel) := by
  intro fuel
  induction fuel with
  | zero => intro m h; exact h
  | succ n ih =>
    intro m h
    unfold HeaderMerger.flush
    by_cases hc : m.cursor ∈ m.pending
    · rw [if_pos hc]
      apply ih
      obtain ⟨ha, hb, hf, hd, hr, he, hg⟩ := h
      refine ⟨?_, ?_, ?_, ?_, ?_, ?_, ?_⟩
      · intro x hx
        exact ha x (List.mem_of_mem_erase hx)
      · intro x hx
        rcases hb x hx with h1 | h1
        · left; show x < m.cursor + 1; omega
        · by_cases hxc : x = m.cursor
          · left; show x < m.cursor + 1; omega
          · right
            exact (hg.mem_erase_iff).mpr ⟨hxc, h1⟩
      · intro x hlo hx
        have hx' : x < m.cursor + 1 := hx
        by_cases hxc : x = m.cursor
        · rw [hxc]; exact ha _ hc
        · exact hf x hlo (by omega)
      · show lo ≤ m.cursor + 1
        omega
      · show m.committed ++ [m.cursor] = List.range' lo (m.cursor + 1 - lo)
        have h1 : m.cursor + 1 - lo = (m.cursor - lo) + 1 := by omega
        rw [h1, List.range'_1_concat, hr]
        congr 2
        omega
      · intro x hx
        have h2 := (hg.mem_erase_iff).mp hx
        have h3 := he x h2.2
        show m.cursor + 1 ≤ x
        have h4 := h2.1
        omega
      · exact hg.erase _
    · rw [if_neg hc]
      exact h

theorem flush_settled :
    ∀ (fuel : Nat) (m : HeaderMerger), m.pending.length ≤ fuel →
      (m.flush fuel).cursor ∉ (m.flush fuel).pending := by
  intro fuel
  induction fuel with
  | zero =>
    intro m h
    have : m.pending = [] := List.length_eq_zero.mp (by omega)
    simp [HeaderMerger.flush, this]
  | succ n ih =>
    intro m h
    unfold HeaderMerger.flush
    by_cases hc : m.cursor ∈ m.pending
    · rw [if_pos hc]
      apply ih
      show (m.pending.erase m.cursor).length ≤ n
      rw [List.length_erase_of_mem hc]
      omega
    · rw [if_neg hc]
      exact hc

theorem deliver_inv (D : Nat → Prop) (lo : Nat) (t : SyncTask) (m : HeaderMerger)
    (h : MergeInv D lo m) (hnew : ∀ x ∈ t.heights, ¬ D x) (hlo : ∀ x ∈ t.heights, lo ≤ x) :
    MergeInv (fun x => D x ∨ x ∈ t.heights) lo (m.deliver t)
    ∧ (m.deliver t).cursor ∉ (m.deliver t).pending := by
  unfold HeaderMerger.deliver
  refine ⟨flush_inv _ lo _ _ ?_, flush_settled _ _ (le_refl _)⟩
  obtain ⟨ha, hb, hf, hd, hr, he, hg⟩ := h
  refine ⟨?_, ?_, ?_, hd, hr, ?_, ?_⟩
  · intro x hx
    rcases List.mem_append.mp hx with h1 | h1
    · exact Or.inl (ha x h1)
    · exact Or.inr h1
  · intro x hx
    rcases hx with h1 | h1
    · rcases hb x h1 with h2 | h2
      · exact Or.inl h2
      · exact Or.inr (List.mem_append.mpr (Or.inl h2))
    · exact Or.inr (List.mem_append.mpr (Or.inr h1))
  · intro x h1 h2
    exact Or.inl (hf x h1 h2)
  · intro x hx
    rcases List.mem_append.mp hx with h1 | h1
    · exact he x h1
    · by_contra hlt
      have hlt2 : ¬ m.cursor ≤ x := hlt
      exact hnew x h1 (hf x (hlo x h1) (by omega))
  · show (m.pending ++ t.heights).Nodup
    rw [List.nodup_append]
    refine ⟨hg, List.nodup_range' _ _, ?_⟩
    intro x h1 h2
    exact hnew x h2 (ha x h1)

theorem deliverAll_inv (lo : Nat) :
    ∀ (arrived : List SyncTask) (D : Nat → Prop) (m : HeaderMerger),
      MergeInv D lo m → m.cursor ∉ m.pending →
      (∀ t ∈ arrived, ∀ x ∈ t.heights, ¬ D x) → (∀ t ∈ arrived, ∀ x ∈ t.heights, lo ≤ x) →
      arrived.Pairwise (fun s t => ∀ x, x ∈ s.heights → x ∉ t.heights) →
      MergeInv (fun x => D x ∨ ∃ t ∈ arrived, x ∈ t.heights) lo (m.deliverAll arrived)
      ∧ (m.deliverAll arrived).cursor ∉ (m.deliverAll arrived).pending := by
  intro arrived
  induction arrived with
  | nil =>
    intro D m h hs _ _ _
    have hD : (fun x => D x ∨ ∃ t ∈ ([] : List SyncTask), x ∈ t.heights) = D := by
      funext x
      simp
    rw [hD]
    exact ⟨h, hs⟩
  | cons t rest ih =>
    intro D m h _ hnew hlo hpw
    obtain ⟨h1, h2⟩ := deliver_inv D lo t m h (hnew t (List.mem_cons_self _ _))
      (hlo t (List.mem_cons_self _ _))
    rw [List.pairwise_cons] at hpw
    have h3 := ih (fun x => D x ∨ x ∈ t.heights) (m.deliver t) h1 h2
      (by
        intro s hs x hx hD
        rcases hD with hD | hD
        · exact hnew s (List.mem_cons_of_mem _ hs) x hx hD
        · exact hpw.1 s hs x hD hx)
      (fun s hs => hlo s (List.mem_cons_of_mem _ hs)) hpw.2
    have hD : (fun x => (D x ∨ x ∈ t.heights) ∨ ∃ s ∈ rest, x ∈ s.heights)
        = (fun x => D x ∨ ∃ s ∈ t :: rest, x ∈ s.heights) := by
      funext x
      simp [or_assoc]
    rw [hD] at h3
    exact h3

theorem start_inv (lo : Nat) : MergeInv (fun _ => False) lo (HeaderMerger.start lo) := by
  refine ⟨?_, ?_, ?_, le_refl _, ?_, ?_, ?_⟩ <;> simp [HeaderMerger.start]

theorem merge_complete (lo hi : Nat) (arrived : List SyncTask)
    (hpw : arrived.Pairwise (fun s t => ∀ x, x ∈ s.heights → x ∉ t.heights))
    (hcov : Covers arrived lo hi) :
    ((HeaderMerger.start lo).deliverAll arrived).committed = List.range' lo (hi - lo)
    ∧ ((HeaderMerger.start lo).deliverAll arrived).pending = [] := by
  obtain ⟨⟨ha, hb, hf, hd, hr, he, hg⟩, hs⟩ := deliverAll_inv lo arrived (fun _ => False)
    (HeaderMerger.start lo) (start_inv lo) (by simp [HeaderMerger.start])
    (fun _ _ _ _ h => h) (fun t ht x hx => ((hcov x).mpr ⟨t, ht, hx⟩).1) hpw
  simp only [false_or] at ha hb hf
  have hcur : hi ≤ ((HeaderMerger.start lo).deliverAll arrived).cursor := by
    by_contra hlt
    rcases hb _ ((hcov _).mp ⟨hd, by omega⟩) with h1 | h1
    · omega
    · exact hs h1
  have hlen : ((HeaderMerger.start lo).deliverAll arrived).cursor - lo = hi - lo := by
    by_cases hlo : ((HeaderMerger.start lo).deliverAll arrived).cursor = lo
    · omega
    · have h1 := hf (((HeaderMerger.start lo).deliverAll arrived).cursor - 1) (by omega)
        (by omega)
      have h2 := (hcov _).mpr h1
      omega
  refine ⟨by rw [hr, hlen], ?_⟩
  apply List.eq_nil_iff_forall_not_mem.mpr
  intro x hx
  have h1 := (hcov x).mpr (ha x hx)
  have h2 := he x hx
  omega

end downloader

/-- C16: for all disjoint header ranges dispatched concurrently, in whatever order their
responses arrive, the merged result is strictly ordered by height with no gaps and no
duplicates.  If the ranges of `tasks` are pairwise disjoint and cover the heights
`lo .. hi - 1`, and the responses arrive in any order `arrived`, then the committed result
is exactly the run `lo, lo + 1, .., hi - 1` and nothing is left in the buffer; and at every
moment of the arrival the result so far is the gap-free ascending run from `lo` up to the
cursor. -/
theorem merged_headers_ordered (lo hi : Nat) (tasks arrived : List downloader.SyncTask)
    (hdis : downloader.Disjoint tasks) (hcov : downloader.Covers tasks lo hi)
    (harr : arrived.Perm tasks) :
    ((downloader.HeaderMerger.start lo).deliverAll arrived).committed = List.range' lo (hi - lo)
    ∧ ((downloader.HeaderMerger.start lo).deliverAll arrived).committed.Pairwise (· < ·)
    ∧ ((downloader.HeaderMerger.start lo).deliverAll arrived).committed.Nodup
    ∧ ((downloader.HeaderMerger.start lo).deliverAll arrived).pending = []
    ∧ (∀ n : Nat,
        ((downloader.HeaderMerger.start lo).deliverAll (arrived.take n)).committed
          = List.range' lo
              (((downloader.HeaderMerger.start lo).deliverAll (arrived.take n)).cursor - lo)) := by
  have hsymm : ∀ {s t : downloader.SyncTask},
      (∀ x, x ∈ s.heights → x ∉ t.heights) → (∀ x, x ∈ t.heights → x ∉ s.heights) :=
    fun h x hx hs => h x hs hx
  have hpw : arrived.Pairwise (fun s t => ∀ x, x ∈ s.heights → x ∉ t.heights) :=
    (harr.pairwise_iff hsymm).mpr hdis
  have hcov2 : downloader.Covers arrived lo hi := by
    intro x
    rw [hcov x]
    constructor
    · rintro ⟨t, ht, hx⟩
      exact ⟨t, harr.mem_iff.mpr ht, hx⟩
    · rintro ⟨t, ht, hx⟩
      exact ⟨t, harr.mem_iff.mp ht, hx⟩
  obtain ⟨h1, h2⟩ := downloader.merge_complete lo hi arrived hpw hcov2
  refine ⟨h1, ?_, ?_, h2, ?_⟩
  · rw [h1]
    exact List.pairwise_lt_range' lo (hi - lo)
  · rw [h1]
    exact List.nodup_range' lo (hi - lo)
  · intro n
    have h3 := downloader.deliverAll_inv lo (arrived.take n) (fun _ => False)
      (downloader.HeaderMerger.start lo) (downloader.start_inv lo)
      (by simp [downloader.HeaderMerger.start]) (fun _ _ _ _ h => h)
      (fun t ht x hx => ((hcov2 x).mpr ⟨t, List.mem_of_mem_take ht, hx⟩).1)
      (hpw.sublist (List.take_sublist n arrived))
    exact h3.1.2.2.2.2.1

/-- C16, at a concrete input: the ranges 10-11, 12-14 and 15, answered last one first. -/
theorem merged_headers_ordered_witness :
    ((downloader.HeaderMerger.start 10).deliverAll [⟨15, 1⟩, ⟨10, 2⟩, ⟨12, 3⟩]).committed
      = List.range' 10 (16 - 10) :=
  (merged_headers_ordered 10 16 [⟨10, 2⟩, ⟨12, 3⟩, ⟨15, 1⟩] [⟨15, 1⟩, ⟨10, 2⟩, ⟨12, 3⟩]
    (by
      unfold downloader.Disjoint
      simp only [List.pairwise_cons, List.mem_cons, List.mem_singleton, List.not_mem_nil,
        or_false, forall_eq_or_imp, forall_eq, downloader.SyncTask.heights, List.mem_range'_1,
        List.Pairwise.nil, and_true, false_implies, implies_true]
      refine ⟨⟨?_, ?_⟩, ?_⟩ <;> intro x hx <;> omega)
    (by
      intro x
      simp only [downloader.SyncTask.heights, List.mem_cons, List.mem_singleton,
        List.mem_range'_1]
      constructor
      · intro hx
        by_cases h1 : x < 12
        · exact ⟨⟨10, 2⟩, Or.inl rfl, by simp only; omega⟩
        · by_cases h2 : x < 15
          · exact ⟨⟨12, 3⟩, Or.inr (Or.inl rfl), by simp only; omega⟩
          · exact ⟨⟨15, 1⟩, Or.inr (Or.inr (Or.inl rfl)), by simp only; omega⟩
      · rintro ⟨t, ht, hx⟩
        rcases ht with ht | ht | ht | ht
        · subst ht; simp only at hx; omega
        · subst ht; simp only at hx; omega
        · subst ht; simp only at hx; omega
        · exact absurd ht (List.not_mem_nil _))
    (by decide)).1

/-! ## The peer registry -/

namespace registry

theorem foldl_pick_some (l : List Peer) (b : Peer) (pre post : List Peer)
    (hpre : ∀ q ∈ pre, q.height < b.height) (hpost : ∀ q ∈ post, q.height ≤ b.height) :
    ∃ p pre2 post2, l.foldl pick (some b) = some p
      ∧ pre ++ b :: post ++ l = pre2 ++ p :: post2
      ∧ (∀ q ∈ pre2, q.height < p.height) ∧ (∀ q ∈ post2, q.height ≤ p.height) := by
  induction l generalizing b pre post with
  | nil => exact ⟨b, pre, post, rfl, by simp, hpre, hpost⟩
  | cons x xs ih =>
    simp only [List.foldl_cons, pick]
    by_cases hx : b.height < x.height
    · rw [if_pos hx]
      obtain ⟨p, pre2, post2, h1, h2, h3, h4⟩ := ih x (pre ++ b :: post) []
        (by
          intro q hq
          rcases List.mem_append.mp hq with hq | hq
          · exact lt_trans (hpre q hq) hx
          · rcases List.mem_cons.mp hq with hq | hq
            · rw [hq]; exact hx
            · exact lt_of_le_of_lt (hpost q hq) hx)
        (by simp)
      exact ⟨p, pre2, post2, h1, by simpa using h2, h3, h4⟩
    · rw [if_neg hx]
      obtain ⟨p, pre2, post2, h1, h2, h3, h4⟩ := ih b pre (post ++ [x]) hpre
        (by
          intro q hq
          rcases List.mem_append.mp hq with hq | hq
          · exact hpost q hq
          · rw [List.mem_singleton.mp hq]; omega)
      exact ⟨p, pre2, post2, h1, by simpa using h2, h3, h4⟩

theorem bestPeer_cons (x : Peer) (xs : List Peer) :
    ∃ p pre post, (PeerRegistry.mk (x :: xs)).bestPeer = some p
      ∧ x :: xs = pre ++ p :: post
      ∧ (∀ q ∈ pre, q.height < p.height) ∧ (∀ q ∈ post, q.height ≤ p.height) := by
  obtain ⟨p, pre2, post2, h1, h2, h3, h4⟩ := foldl_pick_some xs x [] [] (by simp) (by simp)
  exact ⟨p, pre2, post2, h1, by simpa using h2, h3, h4⟩

end registry

/-- C17: for every non-empty peer registry, `bestPeer()` returns a registered peer whose
height is maximal among all registered peers, and among the peers of that height the one
registered earliest: every peer registered before it is strictly lower.  With peers of
heights 100, 120 and 150, registered in any order, it returns the height-150 peer. -/
theorem bestPeer_highest_earliest (r : registry.PeerRegistry) (hne : r.peers ≠ []) :
    (∃ (p : registry.Peer) (earlier later : List registry.Peer),
        r.bestPeer = some p
        ∧ r.peers = earlier ++ p :: later
        ∧ (∀ q ∈ r.peers, q.height ≤ p.height)
        ∧ (∀ q ∈ earlier, q.height < p.height))
    ∧ (∀ a b c : registry.Peer, a.height = 100 → b.height = 120 → c.height = 150 →
        r.peers.Perm [a, b, c] → r.bestPeer = some c) := by
  have hmain : ∃ (p : registry.Peer) (earlier later : List registry.Peer),
      r.bestPeer = some p ∧ r.peers = earlier ++ p :: later
      ∧ (∀ q ∈ r.peers, q.height ≤ p.height) ∧ (∀ q ∈ earlier, q.height < p.height) := by
    obtain ⟨peers⟩ := r
    cases peers with
    | nil => exact absurd rfl hne
    | cons x xs =>
      obtain ⟨p, pre, post, h1, h2, h3, h4⟩ := registry.bestPeer_cons x xs
      refine ⟨p, pre, post, h1, h2, ?_, h3⟩
      intro q hq
      simp only at hq
      rw [h2] at hq
      rcases List.mem_append.mp hq with hq | hq
      · exact le_of_lt (h3 q hq)
      · rcases List.mem_cons.mp hq with hq | hq
        · rw [hq]
        · exact h4 q hq
  refine ⟨hmain, ?_⟩
  intro a b c ha hb hc hperm
  obtain ⟨p, earlier, later, h1, h2, h3, _⟩ := hmain
  have hp : p ∈ r.peers := by
    rw [h2]
    exact List.mem_append.mpr (Or.inr (List.mem_cons_self _ _))
  have hcm : c ∈ r.peers := hperm.mem_iff.mpr (by simp)
  have hle := h3 c hcm
  have hp2 : p ∈ [a, b, c] := hperm.mem_iff.mp hp
  rw [h1]
  simp only [List.mem_cons, List.mem_singleton, List.not_mem_nil, or_false] at hp2
  rcases hp2 with hp2 | hp2 | hp2
  · rw [hp2] at hle; omega
  · rw [hp2] at hle; omega
  · rw [hp2]

/-- C17, at a concrete input: three peers registered with heights 100, 120 and 150. -/
theorem bestPeer_highest_earliest_witness :
    (registry.PeerRegistry.mk [⟨1, 0, 100, 63, false⟩, ⟨2, 0, 120, 63, false⟩,
        ⟨3, 0, 150, 63, false⟩]).bestPeer = some ⟨3, 0, 150, 63, false⟩ :=
  (bestPeer_highest_earliest
    (registry.PeerRegistry.mk [⟨1, 0, 100, 63, false⟩, ⟨2, 0, 120, 63, false⟩,
      ⟨3, 0, 150, 63, false⟩]) (by decide)).2
    ⟨1, 0, 100, 63, false⟩ ⟨2, 0, 120, 63, false⟩ ⟨3, 0, 150, 63, false⟩ rfl rfl rfl
    (List.Perm.refl _)

/-! ## The random integers of the console tests -/

namespace gtst

theorem wrap64_id (i : Int) (h : IsInt i) : wrap64 i = i := by
  obtain ⟨h1, h2⟩ := h
  unfold wrap64
  have h3 : (i + 2 ^ 63) % 2 ^ 64 = i + 2 ^ 63 := Int.emod_eq_of_lt (by omega) (by omega)
  rw [h3]
  omega

theorem trulyRandInt_range (draw : Int → Int) (hd : ValidDraw draw) (lo hi : Int)
    (hlo : IsInt lo) (hhi : IsInt hi) (hlt : lo < hi) (hno : hi - lo < 2 ^ 63) :
    ∃ r, trulyRandInt draw lo hi = some r ∧ lo ≤ r ∧ r < hi := by
  have hmax : IsInt (hi - lo) := ⟨by omega, hno⟩
  have hpos : 0 < hi - lo := by omega
  obtain ⟨hn0, hn1⟩ := hd (hi - lo) hpos
  have hnum : IsInt (draw (hi - lo)) := ⟨by omega, by omega⟩
  have hsum : IsInt (draw (hi - lo) + lo) := by
    obtain ⟨a, b⟩ := hlo
    obtain ⟨c, d⟩ := hhi
    exact ⟨by omega, by omega⟩
  refine ⟨draw (hi - lo) + lo, ?_, by omega, by omega⟩
  unfold trulyRandInt
  simp only [wrap64_id _ hmax]
  rw [if_neg (by omega)]
  simp only [wrap64_id _ hnum, wrap64_id _ hsum]

theorem six_digits (n : Nat) (h1 : 100000 ≤ n) (h2 : n < 1000000) :
    (Nat.digits 10 n).length = 6 := by
  rw [Nat.digits_len 10 n (by norm_num) (by omega)]
  have : Nat.log 10 n = 5 := by
    rw [Nat.log_eq_iff (by norm_num)]
    constructor <;> norm_num <;> omega
  rw [this]

end gtst

/-- C18: `trulyRandInt(lo, hi)` generates an integer in the half-open range `[lo, hi)`.
For every random source that keeps the contract of `rand.Int` and all ints `lo < hi` whose
difference does not overflow, the call returns a result `r` with `lo <= r < hi`; in
particular `trulyRandInt(1024, 65536)` is a valid non-privileged TCP port and
`trulyRandInt(100000, 999999)` has exactly six decimal digits. -/
theorem trulyRandInt_half_open (draw : Int → Int) (hd : gtst.ValidDraw draw) (lo hi : Int)
    (hlo : gtst.IsInt lo) (hhi : gtst.IsInt hi) (hlt : lo < hi) (hno : hi - lo < 2 ^ 63) :
    (∃ r, gtst.trulyRandInt draw lo hi = some r ∧ lo ≤ r ∧ r < hi)
    ∧ (∃ r, gtst.trulyRandInt draw 1024 65536 = some r ∧ 1024 ≤ r ∧ r ≤ 65535)
    ∧ (∃ r, gtst.trulyRandInt draw 100000 999999 = some r ∧ 100000 ≤ r ∧ r ≤ 999999
        ∧ (Nat.digits 10 r.toNat).length = 6) := by
  refine ⟨gtst.trulyRandInt_range draw hd lo hi hlo hhi hlt hno, ?_, ?_⟩
  · obtain ⟨r, hr, h1, h2⟩ := gtst.trulyRandInt_range draw hd 1024 65536
      ⟨by norm_num, by norm_num⟩ ⟨by norm_num, by norm_num⟩ (by norm_num) (by norm_num)
    exact ⟨r, hr, h1, by omega⟩
  · obtain ⟨r, hr, h1, h2⟩ := gtst.trulyRandInt_range draw hd 100000 999999
      ⟨by norm_num, by norm_num⟩ ⟨by norm_num, by norm_num⟩ (by norm_num) (by norm_num)
    exact ⟨r, hr, h1, by omega, gtst.six_digits r.toNat (by omega) (by omega)⟩

/-- C18, at a concrete input: the source that always draws the largest number. -/
theorem trulyRandInt_half_open_witness :
    gtst.ValidDraw gtst.sampleDraw
    ∧ ∃ r, gtst.trulyRandInt gtst.sampleDraw 1024 65536 = some r ∧ (1024 : Int) ≤ r
        ∧ r < 65536 :=
  have hd : gtst.ValidDraw gtst.sampleDraw := fun max hmax => by
    unfold gtst.sampleDraw
    omega
  ⟨hd, (trulyRandInt_half_open gtst.sampleDraw hd 1024 65536 ⟨by decide, by decide⟩
    ⟨by decide, by decide⟩ (by decide) (by decide)).1⟩

/-! ## The configured node -/

namespace gec

theorem NewNode_via_stackConf (env : Env) (datadir : String) (p : Nat) (h : Heap) :
    NewNode env datadir (some p) h =
      match NewNode.stackConf env datadir (some p) h with
      | none => (Result.panic, (NewNode.defaults (some p) h).2)
      | some conf =>
        match env.New conf with
        | Except.error err => (Result.ret none (some err), (NewNode.defaults (some p) h).2)
        | Except.ok rawStack =>
          match NewNode.genesis env p (NewNode.defaults (some p) h).2 with
          | Except.error r => (r, (NewNode.defaults (some p) h).2)
          | Except.ok (genesis, h2) => (NewNode.services env p genesis rawStack h2, h2) := by
  unfold NewNode NewNode.stackConf
  simp only [defaults_fst]
  cases ((NewNode.defaults (some p) h).2.cell p).BooecrapNodes with
  | none => rfl
  | some b => rfl

theorem stackCreated_iff (env : Env) (datadir : String) (p : Nat) (h : Heap)
    (raw : node.Node) :
    NewNode.StackCreated env datadir p h raw
      ↔ ∃ conf, NewNode.stackConf env datadir (some p) h = some conf
          ∧ env.New conf = Except.ok raw := by
  unfold NewNode.StackCreated NewNode.stackConf
  simp only [defaults_fst]
  constructor
  · rintro ⟨b, hb, hn⟩
    rw [hb]
    exact ⟨_, rfl, hn⟩
  · rintro ⟨conf, hc, hn⟩
    cases hb : ((NewNode.defaults (some p) h).2.cell p).BooecrapNodes with
    | none => rw [hb] at hc; cases hc
    | some b =>
      rw [hb] at hc
      injection hc with hc
      rw [← hc] at hn
      exact ⟨b, rfl, hn⟩

theorem services_exact (env : Env) (p : Nat) (g : Option core.Genesis) (raw : node.Node)
    (h : Heap) (n : Node) (hr : NewNode.services env p g raw h = Result.ret (some n) none) :
    n.node = { raw with serviceFuncs := raw.serviceFuncs ++ NewNode.requested env p g (h.cell p) }
    ∧ NewNode.servicesStack env p g raw h = n.node := by
  unfold NewNode.services at hr
  unfold NewNode.servicesStack NewNode.requested
  by_cases he : (h.cell p).ecchainEnabled = true
  · simp only [he, if_true] at hr ⊢
    rcases Register_cases env raw (node.ServiceConstructor.les (NewNode.ecConf env g (h.cell p)))
      with ⟨e, h1⟩ | h1
    · rw [h1] at hr
      simp at hr
    · rw [h1] at hr ⊢
      dsimp only at hr ⊢
      by_cases hn : (h.cell p).ecchainNeecats = ""
      · simp only [hn, ne_eq, not_true_eq_false, if_false] at hr ⊢
        by_cases hw : (h.cell p).WhisperEnabled = true
        · simp only [hw, if_true] at hr ⊢
          rcases Register_cases env
            { raw with serviceFuncs := raw.serviceFuncs
                ++ [node.ServiceConstructor.les (NewNode.ecConf env g (h.cell p))] }
            node.ServiceConstructor.whisper with ⟨e, h2⟩ | h2
          · rw [h2] at hr
            simp at hr
          · rw [h2] at hr ⊢
            simp at hr
            rw [← hr]
            simp
        · simp only [hw] at hr ⊢
          simp at hr
          rw [← hr]
          simp
      · simp only [hn, ne_eq, not_false_eq_true, if_true] at hr ⊢
        rcases Register_cases env
            { raw with serviceFuncs := raw.serviceFuncs
                ++ [node.ServiceConstructor.les (NewNode.ecConf env g (h.cell p))] }
            (node.ServiceConstructor.ecstats p) with ⟨e, h2⟩ | h2
        · rw [h2] at hr
          simp at hr
        · rw [h2] at hr ⊢
          dsimp only at hr ⊢
          by_cases hw : (h.cell p).WhisperEnabled = true
          · simp only [hw, if_true] at hr ⊢
            rcases Register_cases env
              { raw with serviceFuncs := (raw.serviceFuncs
                  ++ [node.ServiceConstructor.les (NewNode.ecConf env g (h.cell p))])
                  ++ [node.ServiceConstructor.ecstats p] }
              node.ServiceConstructor.whisper with ⟨e, h3⟩ | h3
            · rw [h3] at hr
              simp at hr
            · rw [h3] at hr ⊢
              simp at hr
              rw [← hr]
              simp
          · simp only [hw] at hr ⊢
            simp at hr
            rw [← hr]
            simp
  · simp only [he] at hr ⊢
    by_cases hw : (h.cell p).WhisperEnabled = true
    · simp only [hw, if_true] at hr ⊢
      rcases Register_cases env raw node.ServiceConstructor.whisper with ⟨e, h2⟩ | h2
      · simp [h2] at hr
      · simp [h2] at hr ⊢
        rw [← hr]
        exact ⟨rfl, rfl⟩
    · simp [hw] at hr ⊢
      rw [← hr]
      exact ⟨rfl, rfl⟩

theorem NewNode_ret_stack (env : Env) (datadir : String) (p : Nat) (h : Heap) (n : Node)
    (hr : (NewNode env datadir (some p) h).1 = Result.ret (some n) none) :
    ∃ g raw, NewNode.StackCreated env datadir p h raw
      ∧ NewNode.genesis env p (NewNode.defaults (some p) h).2
          = Except.ok (g, (NewNode env datadir (some p) h).2)
      ∧ NewNode.services env p g raw (NewNode env datadir (some p) h).2
          = Result.ret (some n) none := by
  have hv := NewNode_via_stackConf env datadir p h
  cases hc : NewNode.stackConf env datadir (some p) h with
  | none =>
    rw [hc] at hv
    rw [hv] at hr
    cases hr
  | some conf =>
    rw [hc] at hv
    dsimp only at hv
    cases hn : env.New conf with
    | error e =>
      rw [hn] at hv
      rw [hv] at hr
      cases hr
    | ok raw =>
      rw [hn] at hv
      dsimp only at hv
      have hs : NewNode.StackCreated env datadir p h raw :=
        (stackCreated_iff env datadir p h raw).mpr ⟨conf, hc, hn⟩
      cases hgen : NewNode.genesis env p (NewNode.defaults (some p) h).2 with
      | error r =>
        rw [hgen] at hv
        rw [hv] at hr
        dsimp only at hr
        rcases genesis_error env p _ r hgen with h1 | ⟨e, h1⟩
        · rw [h1] at hr
          cases hr
        · rw [h1] at hr
          cases hr
      | ok gh =>
        obtain ⟨g, h2⟩ := gh
        rw [hgen] at hv
        dsimp only at hv
        rw [hv] at hr ⊢
        exact ⟨g, raw, hs, rfl, hr⟩

theorem stack_of_ret (env : Env) (datadir : String) (p : Nat) (h : Heap) (n : Node)
    (hr : (NewNode env datadir (some p) h).1 = Result.ret (some n) none) :
    NewNode.stack env datadir (some p) h = some n.node := by
  obtain ⟨g, raw, hs, hgen, hsv⟩ := NewNode_ret_stack env datadir p h n hr
  obtain ⟨conf, hc, hn⟩ := (stackCreated_iff env datadir p h raw).mp hs
  unfold NewNode.stack
  simp only [defaults_fst]
  rw [hc]
  dsimp only
  rw [hn]
  dsimp only
  rw [hgen]
  dsimp only
  rw [(services_exact env p g raw _ n hsv).2]

theorem stack_of_genesis_error (env : Env) (datadir : String) (p : Nat) (h : Heap)
    (raw : node.Node) (r : Result) (hs : NewNode.StackCreated env datadir p h raw)
    (hgen : NewNode.genesis env p (NewNode.defaults (some p) h).2 = Except.error r) :
    NewNode.stack env datadir (some p) h = some raw := by
  obtain ⟨conf, hc, hn⟩ := (stackCreated_iff env datadir p h raw).mp hs
  unfold NewNode.stack
  simp only [defaults_fst]
  rw [hc]
  dsimp only
  rw [hn]
  dsimp only
  rw [hgen]

end gec

/-- C9, as stated, fails: a caller's configuration without bootstrap nodes, with the
non-zero network id 1 and the testnet genesis gets the default bootstrap nodes but does not
keep its network id.  `NewNode` changes it to 3, in the caller's struct and in the service
configuration of the node it returns. -/
theorem testnet_changes_NetworkID :
    ((gec.sampleHeap
        { gec.defaultNodeConfigLit gec.sampleEnv with
          BooecrapNodes := none, ecchainGenesis := "testnet" }).cell 1).BooecrapNodes = none
    ∧ ((gec.sampleHeap
        { gec.defaultNodeConfigLit gec.sampleEnv with
          BooecrapNodes := none, ecchainGenesis := "testnet" }).cell 1).ecchainNetworkID = 1
    ∧ ((gec.NewNode gec.sampleEnv "/data" (some 1)
        (gec.sampleHeap
          { gec.defaultNodeConfigLit gec.sampleEnv with
            BooecrapNodes := none, ecchainGenesis := "testnet" })).2.cell 1).BooecrapNodes
        = some (gec.FoundationBootnodes gec.sampleEnv)
    ∧ ((gec.NewNode gec.sampleEnv "/data" (some 1)
        (gec.sampleHeap
          { gec.defaultNodeConfigLit gec.sampleEnv with
            BooecrapNodes := none, ecchainGenesis := "testnet" })).2.cell 1).ecchainNetworkID
        = 3
    ∧ ∃ (n : gec.Node) (ecConf : ec.Config),
        (gec.NewNode gec.sampleEnv "/data" (some 1)
          (gec.sampleHeap
            { gec.defaultNodeConfigLit gec.sampleEnv with
              BooecrapNodes := none, ecchainGenesis := "testnet" })).1
          = gec.Result.ret (some n) none
        ∧ n.node.config.P2P.BooecrapNodesV5 = (gec.FoundationBootnodes gec.sampleEnv).nodes
        ∧ n.node.serviceFuncs = [node.ServiceConstructor.les ecConf]
        ∧ ecConf.NetworkId = 3 := by
  refine ⟨rfl, by decide, by decide, by decide, _, _, rfl, ?_, rfl, ?_⟩
  · decide
  · decide

/-- C9, amended: `NewNode` uses defaults when no or a partial configuration is given.
`NewNode(datadir, nil)` is `NewNode(datadir, NewNodeConfig())`; for a non-nil `config` a nil
or empty `BooecrapNodes` is replaced by the default bootstrap nodes and a non-empty one is
kept, a non-zero `MaxPeers` is kept, and `ecchainEnabled`, `ecchainGenesis`,
`ecchainDatabaseCache`, `ecchainNeecats` and `WhisperEnabled` are kept as given;
`ecchainNetworkID` is kept as well, except that 1 becomes 3 when `ecchainGenesis` is the
testnet genesis.  The node is configured from these values: the configuration handed to
`node.New` carries the bootstrap nodes and `MaxPeers` of the struct as `NewNode` leaves it,
and the services registered on a returned node are exactly those that struct asks for. -/
theorem NewNode_uses_defaults (env : gec.Env) (datadir : String) (p : Nat) (h : gec.Heap) :
    gec.NewNode env datadir none h
        = gec.NewNode env datadir (some (gec.NewNodeConfig h).1) (gec.NewNodeConfig h).2
    ∧ ((h.cell p).BooecrapNodes = none → ((gec.NewNode env datadir (some p) h).2.cell p).BooecrapNodes
          = (h.cell gec.defaultNodeConfig).BooecrapNodes)
    ∧ (∀ e : gec.Enodes, (h.cell p).BooecrapNodes = some e →
        ((gec.NewNode env datadir (some p) h).2.cell p).BooecrapNodes
          = if e.Size = 0 then (h.cell gec.defaultNodeConfig).BooecrapNodes else some e)
    ∧ ((h.cell p).MaxPeers ≠ 0 →
        ((gec.NewNode env datadir (some p) h).2.cell p).MaxPeers = (h.cell p).MaxPeers)
    ∧ ((gec.NewNode env datadir (some p) h).2.cell p).ecchainEnabled = (h.cell p).ecchainEnabled
    ∧ ((gec.NewNode env datadir (some p) h).2.cell p).ecchainGenesis = (h.cell p).ecchainGenesis
    ∧ ((gec.NewNode env datadir (some p) h).2.cell p).ecchainDatabaseCache
        = (h.cell p).ecchainDatabaseCache
    ∧ ((gec.NewNode env datadir (some p) h).2.cell p).ecchainNeecats = (h.cell p).ecchainNeecats
    ∧ ((gec.NewNode env datadir (some p) h).2.cell p).WhisperEnabled = (h.cell p).WhisperEnabled
    ∧ (((gec.NewNode env datadir (some p) h).2.cell p).ecchainNetworkID
          = (h.cell p).ecchainNetworkID
        ∨ ((h.cell p).ecchainNetworkID = 1
          ∧ ((gec.NewNode env datadir (some p) h).2.cell p).ecchainNetworkID = 3
          ∧ (h.cell p).ecchainGenesis ≠ ""
          ∧ gec.TestnetGenesis env = some (h.cell p).ecchainGenesis))
    ∧ gec.NewNode env datadir (some p) h
        = (match gec.NewNode.stackConf env datadir (some p) h with
          | none => (gec.Result.panic, (gec.NewNode.defaults (some p) h).2)
          | some conf =>
            match env.New conf with
            | Except.error err =>
              (gec.Result.ret none (some err), (gec.NewNode.defaults (some p) h).2)
            | Except.ok rawStack =>
              match gec.NewNode.genesis env p (gec.NewNode.defaults (some p) h).2 with
              | Except.error r => (r, (gec.NewNode.defaults (some p) h).2)
              | Except.ok (genesis, h2) =>
                (gec.NewNode.services env p genesis rawStack h2, h2))
    ∧ (∀ conf : node.Config, gec.NewNode.stackConf env datadir (some p) h = some conf →
        ∃ b : gec.Enodes,
          ((gec.NewNode env datadir (some p) h).2.cell p).BooecrapNodes = some b
          ∧ conf.P2P.BooecrapNodesV5 = b.nodes
          ∧ conf.P2P.MaxPeers = ((gec.NewNode env datadir (some p) h).2.cell p).MaxPeers
          ∧ conf.DataDir = datadir)
    ∧ (∀ n : gec.Node, (gec.NewNode env datadir (some p) h).1 = gec.Result.ret (some n) none →
        ∃ (g : Option core.Genesis) (raw : node.Node),
          gec.NewNode.StackCreated env datadir p h raw
          ∧ n.node.config = raw.config
          ∧ n.node.serviceFuncs = raw.serviceFuncs
              ++ gec.NewNode.requested env p g ((gec.NewNode env datadir (some p) h).2.cell p)) := by
  have hc := gec.NewNode_cell env datadir p h
  have hd := gec.defaults_cell p h
  refine ⟨rfl, ?_, ?_, ?_, ?_, ?_, ?_, ?_, ?_, ?_, gec.NewNode_via_stackConf env datadir p h, ?_, ?_⟩
  · intro hb
    rw [hc, hd]
    simp [hb]
  · intro e hb
    rw [hc, hd]
    simp [hb]
  · intro hm
    rw [hc, hd]
    simp [hm]
  · rw [hc, hd]
  · rw [hc, hd]
  · rw [hc, hd]
  · rw [hc, hd]
  · rw [hc, hd]
  · rcases gec.NewNode_heap env datadir p h with h1 | ⟨g, hg⟩
    · left
      rw [h1, hd]
    · rcases gec.genesis_cell env p _ _ g hg with h1 | ⟨h1, h2, h3, h4⟩
      · left
        rw [h1, hd]
      · right
        rw [hd] at h2 h3 h4
        refine ⟨h2, ?_, h3, h4⟩
        rw [h1]
        simp [gec.Heap.store]
  · intro conf hconf
    unfold gec.NewNode.stackConf at hconf
    simp only [gec.defaults_fst] at hconf
    cases hb : ((gec.NewNode.defaults (some p) h).2.cell p).BooecrapNodes with
    | none =>
      rw [hb] at hconf
      cases hconf
    | some b =>
      rw [hb] at hconf
      injection hconf with hconf
      refine ⟨b, ?_, ?_, ?_, ?_⟩
      · rw [hc]
        exact hb
      · rw [← hconf]
        rfl
      · rw [← hconf, hc]
        rfl
      · rw [← hconf]
        rfl
  · intro n hr
    obtain ⟨g, raw, hs, _, hsv⟩ := gec.NewNode_ret_stack env datadir p h n hr
    have hn := (gec.services_exact env p g raw _ n hsv).1
    exact ⟨g, raw, hs, by rw [hn], by rw [hn]⟩

/-- C9, amended, at a concrete input: a configuration without bootstrap nodes gets the
default ones, and its `MaxPeers` of 7 is kept. -/
theorem NewNode_uses_defaults_witness :
    ((gec.NewNode gec.sampleEnv "/data" (some 1)
        (gec.sampleHeap { gec.NodeConfig.zero with MaxPeers := 7 })).2.cell 1).BooecrapNodes
      = some (gec.FoundationBootnodes gec.sampleEnv)
    ∧ ((gec.NewNode gec.sampleEnv "/data" (some 1)
        (gec.sampleHeap { gec.NodeConfig.zero with MaxPeers := 7 })).2.cell 1).MaxPeers = 7 :=
  ⟨(NewNode_uses_defaults gec.sampleEnv "/data" 1
      (gec.sampleHeap { gec.NodeConfig.zero with MaxPeers := 7 })).2.1 rfl,
    (NewNode_uses_defaults gec.sampleEnv "/data" 1
      (gec.sampleHeap { gec.NodeConfig.zero with MaxPeers := 7 })).2.2.2.1 (by decide)⟩

/-- C12, as stated, fails: when `node.New` refuses to create the protocol stack, `NewNode`
returns that error for a configuration with a malformed genesis too; the message `no
datadir` does not start with `invalid genesis spec: `. -/
theorem stack_error_precedes_genesis_error :
    ((gec.sampleHeap
        { gec.defaultNodeConfigLit gec.sampleEnv with ecchainGenesis := "not json" }).cell
          1).ecchainGenesis ≠ ""
    ∧ gec.sampleEnv.Unmarshal "not json" = Except.error "invalid character"
    ∧ (gec.NewNode gec.sampleEnv "" (some 1)
        (gec.sampleHeap
          { gec.defaultNodeConfigLit gec.sampleEnv with ecchainGenesis := "not json" })).1
        = gec.Result.ret none (some "no datadir")
    ∧ ("invalid genesis spec: ".isPrefixOf "no datadir") = false := by
  refine ⟨by decide, rfl, by decide, by decide⟩

/-- C12, amended: `NewNode` rejects a malformed genesis once the protocol stack is created.
If `node.New` returned the stack `raw`, then for every configuration whose `ecchainGenesis`
is not empty and is refused by `json.Unmarshal` with the error `e`, `NewNode` returns a nil
node and the error `invalid genesis spec: e`, and no service is registered: at the return
the stack is `raw`, exactly as `node.New` made it.  `NewNode` returns from the genesis
block, and its outcome does not depend on what `Register` would do. -/
theorem malformed_genesis_rejected (env : gec.Env) (datadir : String) (p : Nat) (h : gec.Heap)
    (raw : node.Node) (e : String)
    (hs : gec.NewNode.StackCreated env datadir p h raw)
    (hg : (h.cell p).ecchainGenesis ≠ "")
    (hu : env.Unmarshal (h.cell p).ecchainGenesis = Except.error e) :
    gec.NewNode env datadir (some p) h
        = (gec.Result.ret none (some ("invalid genesis spec: " ++ e)),
            (gec.NewNode.defaults (some p) h).2)
    ∧ gec.NewNode.stack env datadir (some p) h = some raw
    ∧ gec.NewNode.genesis env p (gec.NewNode.defaults (some p) h).2
        = Except.error (gec.Result.ret none (some ("invalid genesis spec: " ++ e)))
    ∧ (∀ r : node.Node → node.ServiceConstructor → p2p.Error,
        gec.NewNode { env with registerErr := r } datadir (some p) h
          = gec.NewNode env datadir (some p) h) := by
  have hg1 : ((gec.NewNode.defaults (some p) h).2.cell p).ecchainGenesis ≠ "" := by
    rw [gec.defaults_genesis]; exact hg
  have hu1 : env.Unmarshal ((gec.NewNode.defaults (some p) h).2.cell p).ecchainGenesis
      = Except.error e := by
    rw [gec.defaults_genesis]; exact hu
  have hgen := gec.genesis_malformed env p (gec.NewNode.defaults (some p) h).2 e hg1 hu1
  have hmain : gec.NewNode env datadir (some p) h
      = (gec.Result.ret none (some ("invalid genesis spec: " ++ e)),
          (gec.NewNode.defaults (some p) h).2) := by
    rw [gec.NewNode_of_stack env datadir p h raw hs, hgen]
  refine ⟨hmain, gec.stack_of_genesis_error env datadir p h raw _ hs hgen, hgen, fun r => ?_⟩
  have hs2 : gec.NewNode.StackCreated { env with registerErr := r } datadir p h raw := hs
  have hgen2 := gec.genesis_malformed { env with registerErr := r } p
    (gec.NewNode.defaults (some p) h).2 e hg1 hu1
  rw [hmain, gec.NewNode_of_stack { env with registerErr := r } datadir p h raw hs2, hgen2]

/-- C12, amended, at a concrete input: the genesis text `not json`. -/
theorem malformed_genesis_rejected_witness :
    (gec.NewNode gec.sampleEnv "/data" (some 1)
      (gec.sampleHeap
        { gec.defaultNodeConfigLit gec.sampleEnv with ecchainGenesis := "not json" })).1
      = gec.Result.ret none (some ("invalid genesis spec: " ++ "invalid character"))
    ∧ ∃ raw : node.Node,
      gec.NewNode.stack gec.sampleEnv "/data" (some 1)
        (gec.sampleHeap
          { gec.defaultNodeConfigLit gec.sampleEnv with ecchainGenesis := "not json" })
        = some raw
      ∧ raw.serviceFuncs = [] :=
  ⟨congrArg Prod.fst
    (malformed_genesis_rejected gec.sampleEnv "/data" 1
      (gec.sampleHeap
        { gec.defaultNodeConfigLit gec.sampleEnv with ecchainGenesis := "not json" })
      _ "invalid character" ⟨_, rfl, rfl⟩ (by decide) rfl).1,
    _,
    (malformed_genesis_rejected gec.sampleEnv "/data" 1
      (gec.sampleHeap
        { gec.defaultNodeConfigLit gec.sampleEnv with ecchainGenesis := "not json" })
      _ "invalid character" ⟨_, rfl, rfl⟩ (by decide) rfl).2.1,
    rfl⟩

/-- C13, as stated, fails: when `node.New` refuses to create the protocol stack, `NewNode`
returns before its genesis block, and a configuration with the testnet genesis and network
id 1 keeps the id 1. -/
theorem testnet_id_kept_without_stack :
    gec.TestnetGenesis gec.sampleEnv = some "testnet"
    ∧ ((gec.sampleHeap
        { gec.defaultNodeConfigLit gec.sampleEnv with ecchainGenesis := "testnet" }).cell
          1).ecchainGenesis = "testnet"
    ∧ ((gec.sampleHeap
        { gec.defaultNodeConfigLit gec.sampleEnv with ecchainGenesis := "testnet" }).cell
          1).ecchainNetworkID = 1
    ∧ (gec.NewNode gec.sampleEnv "" (some 1)
        (gec.sampleHeap
          { gec.defaultNodeConfigLit gec.sampleEnv with ecchainGenesis := "testnet" })).1
        = gec.Result.ret none (some "no datadir")
    ∧ ((gec.NewNode gec.sampleEnv "" (some 1)
        (gec.sampleHeap
          { gec.defaultNodeConfigLit gec.sampleEnv with
            ecchainGenesis := "testnet" })).2.cell 1).ecchainNetworkID = 1 := by
  refine ⟨rfl, rfl, by decide, by decide, by decide⟩

/-- C13, amended: the testnet chain settings are hard-coded once the protocol stack is
created and the genesis is parsed.  Let `s` be `TestnetGenesis()`.  For a configuration
whose `ecchainGenesis` differs from `s` the network id is never altered, and the services
are registered with the parsed genesis as it is.  For a configuration whose `ecchainGenesis`
is `s`, once `node.New` has returned the stack and the genesis is parsed, the services are
registered with the parsed genesis whose `Config` is set to `params.TestnetChainConfig`, and
`ecchainNetworkID` becomes 3 if it was 1 and stays as it was otherwise.  On a returned node
the registered service configuration carries that genesis and that network id. -/
theorem testnet_settings_hard_coded (env : gec.Env) (datadir : String) (p : Nat)
    (h : gec.Heap) (s : String) (ht : gec.TestnetGenesis env = some s) :
    ((h.cell p).ecchainGenesis ≠ s →
        ((gec.NewNode env datadir (some p) h).2.cell p).ecchainNetworkID
          = (h.cell p).ecchainNetworkID)
    ∧ (∀ (raw : node.Node) (g : core.Genesis),
        gec.NewNode.StackCreated env datadir p h raw →
        (h.cell p).ecchainGenesis ≠ s → (h.cell p).ecchainGenesis ≠ "" →
        env.Unmarshal (h.cell p).ecchainGenesis = Except.ok g →
        gec.NewNode env datadir (some p) h
          = (gec.NewNode.services env p (some g) raw (gec.NewNode.defaults (some p) h).2,
              (gec.NewNode.defaults (some p) h).2))
    ∧ (∀ (raw : node.Node) (g : core.Genesis),
        gec.NewNode.StackCreated env datadir p h raw →
        (h.cell p).ecchainGenesis = s → s ≠ "" →
        env.Unmarshal s = Except.ok g →
        (gec.NewNode env datadir (some p) h).1
            = gec.NewNode.services env p (some { g with Config := some env.TestnetChainConfig })
                raw (gec.NewNode env datadir (some p) h).2
          ∧ ((gec.NewNode env datadir (some p) h).2.cell p).ecchainNetworkID
              = (if (h.cell p).ecchainNetworkID = 1 then 3 else (h.cell p).ecchainNetworkID)
          ∧ (∀ q, q ≠ p → (gec.NewNode env datadir (some p) h).2.cell q
              = (gec.NewNode.defaults (some p) h).2.cell q))
    ∧ (∀ (n : gec.Node) (g : core.Genesis),
        (gec.NewNode env datadir (some p) h).1 = gec.Result.ret (some n) none →
        (h.cell p).ecchainEnabled = true →
        (h.cell p).ecchainGenesis = s → s ≠ "" → env.Unmarshal s = Except.ok g →
        ∃ ecConf : ec.Config, node.ServiceConstructor.les ecConf ∈ n.node.serviceFuncs
          ∧ ecConf.Genesis = some { g with Config := some env.TestnetChainConfig }
          ∧ ecConf.NetworkId
              = uint64 (if (h.cell p).ecchainNetworkID = 1 then 3
                  else (h.cell p).ecchainNetworkID))
    ∧ (∀ (n : gec.Node) (g : core.Genesis),
        (gec.NewNode env datadir (some p) h).1 = gec.Result.ret (some n) none →
        (h.cell p).ecchainEnabled = true →
        (h.cell p).ecchainGenesis ≠ s → (h.cell p).ecchainGenesis ≠ "" →
        env.Unmarshal (h.cell p).ecchainGenesis = Except.ok g →
        ∃ ecConf : ec.Config, node.ServiceConstructor.les ecConf ∈ n.node.serviceFuncs
          ∧ ecConf.Genesis = some g
          ∧ ecConf.NetworkId = uint64 (h.cell p).ecchainNetworkID) := by
  refine ⟨?_, ?_, ?_, ?_, ?_⟩
  · intro hne
    rcases gec.NewNode_heap env datadir p h with h1 | ⟨g, hgen⟩
    · rw [h1, gec.defaults_NetworkID]
    · rcases gec.genesis_cell env p _ _ g hgen with h1 | ⟨_, _, _, h4⟩
      · rw [h1, gec.defaults_NetworkID]
      · rw [ht, gec.defaults_genesis] at h4
        injection h4 with h4
        exact absurd h4.symm hne
  · intro raw g hs hne hne0 hu
    have hgen := gec.genesis_other env p (gec.NewNode.defaults (some p) h).2 g s
      (by rw [gec.defaults_genesis]; exact hne0)
      (by rw [gec.defaults_genesis]; exact hu) ht
      (by rw [gec.defaults_genesis]; exact hne)
    rw [gec.NewNode_of_stack env datadir p h raw hs, hgen]
  · intro raw g hs heq hne0 hu
    have hgen := gec.genesis_testnet env p (gec.NewNode.defaults (some p) h).2 g s
      (by rw [gec.defaults_genesis, heq]; exact hne0)
      (by rw [gec.defaults_genesis, heq]; exact hu) ht
      (by rw [gec.defaults_genesis]; exact heq)
    rw [gec.NewNode_of_stack env datadir p h raw hs, hgen]
    dsimp only
    rw [gec.defaults_NetworkID]
    refine ⟨rfl, ?_, ?_⟩
    · by_cases h1 : (h.cell p).ecchainNetworkID = 1
      · rw [if_pos h1, if_pos h1]
        simp [gec.Heap.store]
      · rw [if_neg h1, if_neg h1, gec.defaults_NetworkID]
    · intro q hq
      by_cases h1 : (h.cell p).ecchainNetworkID = 1
      · rw [if_pos h1]
        simp [gec.Heap.store, hq]
      · rw [if_neg h1]
  · intro n g hr he heq hne0 hu
    obtain ⟨g2, raw, hs, hgen2, hsv⟩ := gec.NewNode_ret_stack env datadir p h n hr
    have hgen := gec.genesis_testnet env p (gec.NewNode.defaults (some p) h).2 g s
      (by rw [gec.defaults_genesis, heq]; exact hne0)
      (by rw [gec.defaults_genesis, heq]; exact hu) ht
      (by rw [gec.defaults_genesis]; exact heq)
    rw [hgen] at hgen2
    injection hgen2 with hgen2
    injection hgen2 with hg2 hh2
    have hcell := gec.NewNode_cell env datadir p h
    have he2 : ((gec.NewNode env datadir (some p) h).2.cell p).ecchainEnabled = true := by
      rw [hcell, gec.defaults_cell]; exact he
    refine ⟨_, gec.services_les env p g2 raw _ n hsv he2, ?_, ?_⟩
    · rw [← hg2]
      rfl
    · simp only [gec.NewNode.ecConf]
      congr 1
      rw [← hh2, gec.defaults_NetworkID]
      by_cases h1 : (h.cell p).ecchainNetworkID = 1
      · rw [if_pos h1, if_pos h1]
        simp [gec.Heap.store]
      · rw [if_neg h1, if_neg h1, gec.defaults_NetworkID]
  · intro n g hr he hne hne0 hu
    obtain ⟨g2, raw, hs, hgen2, hsv⟩ := gec.NewNode_ret_stack env datadir p h n hr
    have hgen := gec.genesis_other env p (gec.NewNode.defaults (some p) h).2 g s
      (by rw [gec.defaults_genesis]; exact hne0)
      (by rw [gec.defaults_genesis]; exact hu) ht
      (by rw [gec.defaults_genesis]; exact hne)
    rw [hgen] at hgen2
    injection hgen2 with hgen2
    injection hgen2 with hg2 hh2
    have hcell := gec.NewNode_cell env datadir p h
    have he2 : ((gec.NewNode env datadir (some p) h).2.cell p).ecchainEnabled = true := by
      rw [hcell, gec.defaults_cell]; exact he
    refine ⟨_, gec.services_les env p g2 raw _ n hsv he2, ?_, ?_⟩
    · rw [← hg2]
      rfl
    · simp only [gec.NewNode.ecConf]
      rw [← hh2, gec.defaults_NetworkID]

/-- C13, amended, at a concrete input: the testnet genesis with network id 1. -/
theorem testnet_settings_hard_coded_witness :
    gec.TestnetGenesis gec.sampleEnv = some "testnet"
    ∧ ((gec.NewNode gec.sampleEnv "/data" (some 1)
        (gec.sampleHeap
          { gec.defaultNodeConfigLit gec.sampleEnv with
            ecchainGenesis := "testnet" })).2.cell 1).ecchainNetworkID
        = (if (1 : Int) = 1 then 3 else 1) :=
  ⟨rfl,
    ((testnet_settings_hard_coded gec.sampleEnv "/data" 1
      (gec.sampleHeap
        { gec.defaultNodeConfigLit gec.sampleEnv with ecchainGenesis := "testnet" })
      "testnet" rfl).2.2.1 _ _ ⟨_, rfl, rfl⟩ rfl (by decide) rfl).2.1⟩
